import Mathlib

/-!
# Verification of the throwable-projectile physics core

Shallow embedding, over the rationals, of the server-side
`ThrowableProjectile` class (per-tick physics, flyover policy, impact
damage, penetration resolution and velocity reflection, detonation).
Pure helpers from the shared utilities (`Vec`, `Collision`, `Hitbox`,
`Angle`, `Numeric`) are not part of the provided sources; where they are
needed they are modelled from the spec and flagged as such in their doc
comments.  Square roots of rationals are computed by `ratSqrt`, which is
exact whenever the radicand is the square of a rational (the only cases
exercised by concrete states in this development).
-/

/-! ## Vector kernel -/

/-- 2D vector over ℚ (the shared `Vector` type; source `Vec.create`). -/
structure Vec where
  x : ℚ
  y : ℚ
deriving DecidableEq, Repr

namespace Vec

/-- Component-wise vector addition (`Vec.add`). -/
def add (a b : Vec) : Vec := ⟨a.x + b.x, a.y + b.y⟩

/-- Component-wise vector subtraction (`Vec.sub`). -/
def sub (a b : Vec) : Vec := ⟨a.x - b.x, a.y - b.y⟩

/-- Scalar multiplication (`Vec.scale`). -/
def scale (a : Vec) (k : ℚ) : Vec := ⟨a.x * k, a.y * k⟩

/-- Dot product (`Vec.dotProduct`). -/
def dotProduct (a b : Vec) : ℚ := a.x * b.x + a.y * b.y

/-- Squared Euclidean length (`Vec.squaredLength`). -/
def squaredLength (a : Vec) : ℚ := a.x * a.x + a.y * a.y

end Vec

/-- Fuel-driven binary search for the natural square root (helper for
`ratSqrt`; the fuel only bounds the bisection, which stops as soon as the
interval is a singleton). -/
def sqrtGo : ℕ → ℕ → ℕ → ℕ → ℕ
  | 0, lo, _, _ => lo
  | f + 1, lo, hi, n =>
    let mid := (lo + hi) / 2
    if mid = lo then lo
    else if mid * mid ≤ n then sqrtGo f mid hi n
    else sqrtGo f lo mid n

/-- Natural square root by bisection (kernel-reducible). -/
def natSqrtE (n : ℕ) : ℕ := sqrtGo (n + 2) 0 (n + 1) n

/-- Rational stand-in for the floating-point `Math.sqrt`:
`√(a/b) = √(a·b)/b`, exact whenever the radicand is the square of a
rational (the only cases exercised by concrete states in this
development), a floor-style approximation elsewhere, `0` on negatives. -/
def ratSqrt (q : ℚ) : ℚ := (natSqrtE (q.num.toNat * q.den) : ℚ) / (q.den : ℚ)

/-- Euclidean length (`Vec.length`), via `ratSqrt`. -/
def Vec.length (a : Vec) : ℚ := ratSqrt (Vec.squaredLength a)

/-- `Numeric.clamp` from the shared math utilities.
Modelled from the spec: clamp a value into `[lo, hi]`. -/
def clampQ (v lo hi : ℚ) : ℚ := max lo (min v hi)

/-- `Geometry.distanceSquared` from the shared math utilities.
Modelled from the spec: squared distance between two points. -/
def distanceSquared (a b : Vec) : ℚ := Vec.squaredLength (Vec.sub a b)

/-! ## Shape kernel

The `Hitbox`/`Collision` utilities are external to the provided sources;
they are modelled from the spec (§4.1): typed shapes supporting overlap
tests, first-intersection-along-a-segment queries, and penetration
resolution returning a direction and a depth.  The convex-polygon case is
omitted (it behaves analogously to the rectangle case); the modelled shape
universe is circles, axis-aligned rectangles and compound groups. -/

/-- Penetration resolution data (`CollisionResponse`): direction and depth. -/
structure PRes where
  dir : Vec
  pen : ℚ
deriving DecidableEq, Repr

/-- Result of a segment-vs-shape query: intersection point and surface normal. -/
structure LineInt where
  point : Vec
  normal : Vec
deriving DecidableEq, Repr

/-- Typed shapes (`Hitbox`): circle, axis-aligned rectangle, compound group. -/
inductive Hitbox where
  | circle (pos : Vec) (radius : ℚ)
  | rect (lo hi : Vec)
  | group (hitboxes : List Hitbox)
deriving Repr

mutual
/-- Overlap test of a shape against the projectile's circle (centre `p`,
radius `pr`).  Modelled from the spec: `intersects(shapeA, shapeB) → bool`. -/
def collidesWithCircle : Hitbox → Vec → ℚ → Bool
  | .circle c r, p, pr => decide (distanceSquared c p < (r + pr) * (r + pr))
  | .rect lo hi, p, pr =>
    let cp : Vec := ⟨clampQ p.x lo.x hi.x, clampQ p.y lo.y hi.y⟩
    decide (distanceSquared cp p < pr * pr)
  | .group hs, p, pr => collidesAnyCircle hs p pr
/-- Overlap test of a group's members against the projectile's circle. -/
def collidesAnyCircle : List Hitbox → Vec → ℚ → Bool
  | [], _, _ => false
  | h :: t, p, pr => collidesWithCircle h p pr || collidesAnyCircle t p pr
end

/-- `Collision.circleCircleIntersection`.  Modelled from the spec:
penetration resolution of two overlapping circles; the direction points
from the first circle towards the second (away from the obstacle, towards
the projectile), the depth is the radial overlap.  `none` when not
overlapping. -/
def circleCircleIntersection (pA : Vec) (rA : ℚ) (pB : Vec) (rB : ℚ) : Option PRes :=
  let d := Vec.sub pB pA
  if distanceSquared pA pB < (rA + rB) * (rA + rB) then
    let dist := ratSqrt (Vec.squaredLength d)
    some ⟨Vec.scale d (1 / dist), rA + rB - dist⟩
  else none

/-- `Collision.rectCircleIntersection`.  Modelled from the spec:
penetration resolution of a circle against an axis-aligned rectangle; the
raw direction points from the circle towards the rectangle (the caller
sign-flips it, mirroring the source's corrected-intent inversion). -/
def rectCircleIntersection (lo hi c : Vec) (r : ℚ) : Option PRes :=
  if lo.x ≤ c.x ∧ c.x ≤ hi.x ∧ lo.y ≤ c.y ∧ c.y ≤ hi.y then
    let dxl := c.x - lo.x
    let dxr := hi.x - c.x
    let dyl := c.y - lo.y
    let dyr := hi.y - c.y
    let m := min (min dxl dxr) (min dyl dyr)
    some (if m = dxl then ⟨⟨1, 0⟩, dxl + r⟩
      else if m = dxr then ⟨⟨-1, 0⟩, dxr + r⟩
      else if m = dyl then ⟨⟨0, 1⟩, dyl + r⟩
      else ⟨⟨0, -1⟩, dyr + r⟩)
  else
    let cp : Vec := ⟨clampQ c.x lo.x hi.x, clampQ c.y lo.y hi.y⟩
    let d := Vec.sub cp c
    if Vec.squaredLength d < r * r then
      let dist := ratSqrt (Vec.squaredLength d)
      some ⟨Vec.scale d (1 / dist), r - dist⟩
    else none

/-- Segment-vs-circle query.  Modelled from the spec: first intersection of
the segment `a → b` with the circle boundary (`none` when the segment
starts inside or misses). -/
def intersectsLineCircle (c : Vec) (r : ℚ) (a b : Vec) : Option LineInt :=
  if distanceSquared a c ≤ r * r then none
  else
    let d := Vec.sub b a
    let f := Vec.sub a c
    let qa := Vec.squaredLength d
    if qa = 0 then none
    else
      let qb := Vec.dotProduct f d
      let qc := Vec.squaredLength f - r * r
      let disc := qb * qb - qa * qc
      if disc < 0 then none
      else
        let t := (-qb - ratSqrt disc) / qa
        if 0 ≤ t ∧ t ≤ 1 then
          let pt := Vec.add a (Vec.scale d t)
          some ⟨pt, Vec.scale (Vec.sub pt c) (1 / r)⟩
        else none

/-- Entry/exit parameter interval of a segment against one slab of an
axis-aligned rectangle (helper for `intersectsLineRect`); `none` when the
segment is parallel to the slab and outside it. -/
def axisSlab (p d lo hi : ℚ) : Option (ℚ × ℚ) :=
  if d = 0 then (if lo ≤ p ∧ p ≤ hi then some (-1000000000, 1000000000) else none)
  else
    let t1 := (lo - p) / d
    let t2 := (hi - p) / d
    some (min t1 t2, max t1 t2)

/-- Segment-vs-rectangle query by the slab method.  Modelled from the
spec: first intersection of the segment `a → b` with an axis-aligned
rectangle's boundary, with the entered face's outward normal. -/
def intersectsLineRect (lo hi a b : Vec) : Option LineInt :=
  let d := Vec.sub b a
  match axisSlab a.x d.x lo.x hi.x, axisSlab a.y d.y lo.y hi.y with
  | some (tx1, tx2), some (ty1, ty2) =>
    let tEnter := max tx1 ty1
    let tExit := min tx2 ty2
    if tEnter ≤ tExit ∧ 0 ≤ tEnter ∧ tEnter ≤ 1 then
      let pt := Vec.add a (Vec.scale d tEnter)
      let n : Vec :=
        if ty1 ≤ tx1 then (if d.x > 0 then ⟨-1, 0⟩ else ⟨1, 0⟩)
        else (if d.y > 0 then ⟨0, -1⟩ else ⟨0, 1⟩)
      some ⟨pt, n⟩
    else none
  | _, _ => none

mutual
/-- Segment-vs-shape query (`Hitbox.intersectsLine`).  Modelled from the
spec: first intersection along the segment; a group reports the member
intersection closest to the segment start. -/
def intersectsLineH : Hitbox → Vec → Vec → Option LineInt
  | .circle c r, a, b => intersectsLineCircle c r a b
  | .rect lo hi, a, b => intersectsLineRect lo hi a b
  | .group hs, a, b => intersectsLineList hs a b
/-- Segment query over a group's members, keeping the hit closest to `a`. -/
def intersectsLineList : List Hitbox → Vec → Vec → Option LineInt
  | [], _, _ => none
  | h :: t, a, b =>
    match intersectsLineH h a b, intersectsLineList t a b with
    | some i, some j =>
      if distanceSquared a i.point ≤ distanceSquared a j.point then some i else some j
    | some i, none => some i
    | none, r => r
end

/-- Apply a penetration resolution to the projectile's centre:
`position += dir * pen` (src lines 388–394). -/
def applyRes (p : Vec) : Option PRes → Vec
  | some c => Vec.add p (Vec.scale c.dir c.pen)
  | none => p

mutual
/-- The recursive closure of `handleCollision` (src lines 347–397): per
shape kind compute a penetration resolution (sign-flipping the rectangle
direction, src lines 360–363), recurse through compound groups keeping the
last colliding member's result, and, whenever the computed resolution is
non-null, immediately translate the projectile's centre by
`dir * pen`.  Returns the translated centre and the kept resolution. -/
def resolveHitbox : Hitbox → Vec → ℚ → Vec × Option PRes
  | .circle c r, p, pr =>
    let col := circleCircleIntersection c r p pr
    (applyRes p col, col)
  | .rect lo hi, p, pr =>
    let col := (rectCircleIntersection lo hi p pr).map
      fun c => ⟨⟨-c.dir.x, -c.dir.y⟩, c.pen⟩
    (applyRes p col, col)
  | .group hs, p, pr =>
    let r := resolveGroupAux hs p none pr
    (applyRes r.1 r.2, r.2)
/-- The member loop of the group case (src lines 378–385): each member
passing the overlap test is resolved recursively (translating the centre
as it goes) and its result — even a null one — overwrites the kept
resolution. -/
def resolveGroupAux : List Hitbox → Vec → Option PRes → ℚ → Vec × Option PRes
  | [], p, col, _ => (p, col)
  | h :: t, p, col, pr =>
    if collidesWithCircle h p pr then
      let r := resolveHitbox h p pr
      resolveGroupAux t r.1 r.2 pr
    else resolveGroupAux t p col pr
end

/-- Modelled from the spec (§4.1): compound shapes keep the **last** member
that reports a resolution — the kept resolution is only overwritten by a
member whose recursive resolution is non-null (same centre threading as
the source loop). -/
def resolveGroupSpecAux : List Hitbox → Vec → Option PRes → ℚ → Vec × Option PRes
  | [], p, col, _ => (p, col)
  | h :: t, p, col, pr =>
    if collidesWithCircle h p pr then
      let r := resolveHitbox h p pr
      resolveGroupSpecAux t r.1 (match r.2 with | some c => some c | none => col) pr
    else resolveGroupSpecAux t p col pr

/-! ## World-object and projectile data model -/

/-- Closed tagged variant over the world-object kinds the update consults
(the source's `isObstacle` / `isBuilding` / `isPlayer` capability flags). -/
inductive ObjKind where
  | obstacle
  | building
  | player
  | loot
deriving DecidableEq, Repr

/-- `FlyoverPref` of an obstacle/building definition. -/
inductive FlyoverPref where
  | always
  | sometimes
  | never
deriving DecidableEq, Repr

/-- A candidate world object as the update observes it.  `id` models
reference identity (the sets and the `object === this.source.owner` test);
`doorIsOpen` is `none` when the obstacle has no door; `diesWhenDamaged`
records the externally-determined outcome of one `object.damage` call
(spec §6: target health may drop to death). -/
structure GObj where
  id : ℕ
  kind : ObjKind
  dead : Bool
  collidable : Bool
  hb : Option Hitbox
  layer : ℤ
  allowFlyover : FlyoverPref
  isStair : Bool
  doorIsOpen : Option Bool
  diesWhenDamaged : Bool

def GObj.isObstacle (o : GObj) : Bool := o.kind == ObjKind.obstacle
def GObj.isBuilding (o : GObj) : Bool := o.kind == ObjKind.building
def GObj.isPlayer (o : GObj) : Bool := o.kind == ObjKind.player

/-- The projectile's `ThrowableDefinition` fields the core consults. -/
structure ProjDef where
  c4 : Bool
  impactDamage : Option ℚ
  obstacleMultiplier : Option ℚ
  speedCap : ℚ
  hasExplosion : Bool

/-- The mutable projectile state owned by the simulation core. -/
structure ProjState where
  pos : Vec
  radius : ℚ
  vel : Vec
  rot : ℚ
  angVel : ℚ
  drag : ℚ
  airborne : Bool
  activated : Bool
  collideWithOwner : Bool
  currentlyAbove : Finset ℕ
  damagedLastTick : Finset ℕ
  spawnTime : ℚ
  layer : ℤ
  dead : Bool
  health : Option ℚ
  ownerId : ℕ
  pdef : ProjDef

/-- Per-tick environment: clock, the spatial query's candidate list, the
floor-classification service and the world bounds (spec §6). -/
structure Env where
  dt : ℚ
  now : ℚ
  candidates : List GObj
  floorOverlay : Vec → ℤ → Bool
  mapWidth : ℚ
  mapHeight : ℚ

/-- Observable side effects of one tick (calls into external collaborators,
plus the per-candidate overlap classification, recorded for the flyover
theorems). -/
inductive Event where
  | damage (id : ℕ) (amount : ℚ)
  | reflect (id : ℕ)
  | stair (id : ℕ)
  | collideCheck (id : ℕ) (colliding : Bool)
  | explode
deriving DecidableEq, Repr

/-- `Drag.Normal` (src line 18). -/
def dragNormal : ℚ := 1 / 1000
/-- `Drag.Harsh` (src line 19). -/
def dragHarsh : ℚ := 5 / 1000
/-- `squaredThresholds.impactDamage` (src line 65). -/
def impactThresholdSq : ℚ := 9 / 10000
/-- `squaredThresholds.flyover` (src line 66). -/
def flyoverThresholdSq : ℚ := 9 / 10000
/-- `squaredThresholds.highFlyover` (src line 67). -/
def highFlyoverThresholdSq : ℚ := 16 / 10000

/-- `equalLayer` from the shared layer utilities.  Modelled from the spec:
objects are on the same discrete vertical tier. -/
def equalLayer (a b : ℤ) : Bool := a == b

/-- Rational stand-in for π used by angle normalization (the embedding is
over ℚ). -/
def piQ : ℚ := 355 / 113

/-- `Angle.normalize`.  Modelled from the spec: normalize an angle into the
canonical range `[-piQ, piQ)`. -/
def normalizeAngle (x : ℚ) : ℚ := x - 2 * piQ * ⌊(x + piQ) / (2 * piQ)⌋

/-- `_calculateSafeDisplacement` (src lines 112–123): half-step
displacement clamped to `speedCap * halfDt`. -/
def calculateSafeDisplacement (s : ProjState) (halfDt : ℚ) : Vec :=
  let displacement := Vec.scale s.vel halfDt
  let displacementLength := Vec.length displacement
  let maxDisplacement := s.pdef.speedCap * halfDt
  if displacementLength > maxDisplacement then
    Vec.scale displacement (maxDisplacement / displacementLength)
  else displacement

/-- The velocity reflection of `handleCollision` (src lines 400–406):
normalize the velocity by its length `len`, reflect off the collision
normal, rescale by `len * 0.4`. -/
def reflectOff (v normal : Vec) (len : ℚ) : Vec :=
  let dir := Vec.scale v (1 / len)
  let dot := Vec.dotProduct dir normal
  Vec.scale (Vec.add (Vec.scale normal (dot * (-2))) dir) (len * (2 / 5))

/-- Whether `o` is dead as observed mid-tick: dead on entry or killed by an
impact-damage call earlier in this tick (`died`). -/
def effDead (died : Finset ℕ) (o : GObj) : Bool := o.dead || decide (o.id ∈ died)

/-- The bail-out guard of `handleCollision` (src lines 326–340). -/
def hcBail (s : ProjState) (died : Finset ℕ) (o : GObj) : Bool :=
  effDead died o ||
    ((!(o.isObstacle || o.isBuilding) || (o.isObstacle && o.isStair)
        || !o.collidable || o.hb.isNone)
      && (!o.isPlayer || (!s.collideWithOwner && o.id == s.ownerId)))

/-- `handleCollision` (src lines 322–408): bail-out guard, overlap and
layer check, penetration resolution (recursing through compound shapes,
with the centre translated per resolution), then velocity reflection when
a resolution exists.  Returns the new projectile state and the emitted
reflection event. -/
def handleCollisionF (s : ProjState) (died : Finset ℕ) (o : GObj) :
    ProjState × List Event :=
  if hcBail s died o then (s, [])
  else match o.hb with
  | none => (s, [])
  | some hitbox =>
    if !collidesWithCircle hitbox s.pos s.radius || !equalLayer s.layer o.layer then
      (s, [])
    else
      let res := resolveHitbox hitbox s.pos s.radius
      let s1 := { s with pos := res.1 }
      match res.2 with
      | none => (s1, [])
      | some col =>
        let len := Vec.length s1.vel
        ({ s1 with vel := reflectOff s1.vel col.dir len }, [Event.reflect o.id])

/-! ## Per-tick update -/

/-- Tick-constant data for the candidate loop: the pre-integration
position captured at src line 158, the squared velocity of src line 169
(fixed before the loop), the impact-damage eligibility of src line 172 and
the impact-damage amount. -/
structure TickCtx where
  oldPosition : Vec
  v2 : ℚ
  shouldDealImpactDamage : Bool
  dmg : ℚ

/-- The closest swept-line intersection tracked across the loop
(src lines 211–217; `none` models the `Number.MAX_VALUE` initial record). -/
structure Closest where
  dist : ℚ
  normal : Vec
  obj : GObj

/-- Mutable state threaded through the candidate loop. -/
structure LoopSt where
  s : ProjState
  died : Finset ℕ
  damagedThisTick : Finset ℕ
  closest : Option Closest
  events : List Event

/-- `flyoverCondMap` (src lines 182–186). -/
def flyoverCond (pref : FlyoverPref) (v2 : ℚ) : Bool :=
  match pref with
  | .always => decide (v2 ≥ flyoverThresholdSq)
  | .sometimes => decide (v2 ≥ highFlyoverThresholdSq)
  | .never => false

/-- `canFlyOver` (src lines 188–207): closed doors never; obstacles on a
strictly lower layer always; otherwise by the flyover preference. -/
def canFlyOver (projLayer : ℤ) (v2 : ℚ) (o : GObj) : Bool :=
  if o.isObstacle then
    (o.doorIsOpen != some false)
      && (decide (o.layer < projLayer) || flyoverCond o.allowFlyover v2)
  else flyoverCond o.allowFlyover v2

/-- The candidate-skip guard of the update loop (src lines 223–237). -/
def loopSkip (ctx : TickCtx) (s : ProjState) (died : Finset ℕ) (o : GObj) : Bool :=
  effDead died o ||
    ((!(o.isObstacle || o.isBuilding) || !o.collidable || o.hb.isNone)
      && (!o.isPlayer || !ctx.shouldDealImpactDamage
            || (!s.collideWithOwner && o.id == s.ownerId)))

/-- Whether a candidate's hitbox overlaps the projectile's circle (the
static half of the per-candidate colliding test, src line 245); `false`
for a hitbox-less candidate. -/
def candidateCollides (s : ProjState) (o : GObj) : Bool :=
  match o.hb with
  | none => false
  | some hb => collidesWithCircle hb s.pos s.radius

/-- The obstacle/building flyover block (src lines 249–267).  Returns the
updated loop state and whether the iteration `continue`s.  Also records a
`collideCheck` observation for the candidate. -/
def obstaclePhase (ctx : TickCtx) (ls : LoopSt) (o : GObj) (colliding : Bool) :
    LoopSt × Bool :=
  if o.isObstacle || o.isBuilding then
    if colliding then
      let isAbove := canFlyOver ls.s.layer ctx.v2 o
      let s1 : ProjState := if isAbove
        then { ls.s with currentlyAbove := insert o.id ls.s.currentlyAbove }
        else { ls.s with drag := dragHarsh }
      let ls1 := { ls with
        s := s1
        events := ls.events ++ [Event.collideCheck o.id true] }
      if o.isObstacle && o.isStair then
        ({ ls1 with events := ls1.events ++ [Event.stair o.id] }, true)
      else if isAbove || decide (o.id ∈ s1.currentlyAbove) then (ls1, true)
      else
        ({ ls1 with s := { s1 with currentlyAbove := s1.currentlyAbove.erase o.id } },
          false)
    else
      let ls1 := { ls with
        s := { ls.s with currentlyAbove := ls.s.currentlyAbove.erase o.id }
        events := ls.events ++ [Event.collideCheck o.id false] }
      (ls1, false)
  else (ls, false)

/-- Closest swept-line intersection tracking (src lines 269–280). -/
def trackPhase (ctx : TickCtx) (ls : LoopSt) (o : GObj)
    (lineInt : Option LineInt) : LoopSt :=
  match lineInt with
  | some li =>
    let dist := distanceSquared ctx.oldPosition li.point
    match ls.closest with
    | none => { ls with closest := some ⟨dist, li.normal, o⟩ }
    | some c =>
      if dist < c.dist then { ls with closest := some ⟨dist, li.normal, o⟩ } else ls
  | none => ls

/-- Collision reaction tail of each iteration (src lines 298–300):
`handleCollision` plus the multiplicative angular-velocity decay. -/
def finishCollide (ls : LoopSt) (o : GObj) : LoopSt :=
  let r := handleCollisionF ls.s ls.died o
  { ls with
    s := { r.1 with angVel := r.1.angVel * (3 / 5) }
    events := ls.events ++ r.2 }

/-- The `object.damage(...)` call of src lines 285–289: record the damage
event (obstacle multiplier applied only to obstacles) and the externally
determined death outcome. -/
def damageApply (ctx : TickCtx) (ls : LoopSt) (o : GObj) : LoopSt :=
  { ls with
      events := ls.events ++ [Event.damage o.id
        (ctx.dmg * (if o.isObstacle then ls.s.pdef.obstacleMultiplier.getD 1 else 1))]
      died := if o.diesWhenDamaged then insert o.id ls.died else ls.died }

/-- A damaged target that survived is recorded in this tick's damaged set
(src line 295). -/
def damageSurvivor (ctx : TickCtx) (ls : LoopSt) (o : GObj) : LoopSt :=
  { damageApply ctx ls o with
      damagedThisTick := insert o.id (damageApply ctx ls o).damagedThisTick }

/-- The impact-damage block (src lines 284–296): damage unless the target
was damaged last tick; a target killed by the damage is skipped from
further reaction; survivors are recorded in this tick's damaged set. -/
def damagePhase (ctx : TickCtx) (ls : LoopSt) (o : GObj) : LoopSt :=
  if ctx.shouldDealImpactDamage && !decide (o.id ∈ ls.s.damagedLastTick) then
    if effDead (damageApply ctx ls o).died o then damageApply ctx ls o
    else finishCollide (damageSurvivor ctx ls o) o
  else finishCollide ls o

/-- One iteration of the candidate loop (src lines 219–301). -/
def processCandidate (ctx : TickCtx) (ls : LoopSt) (o : GObj) : LoopSt :=
  if loopSkip ctx ls.s ls.died o then ls
  else match o.hb with
  | none => ls
  | some hitbox =>
    let lineInt := intersectsLineH hitbox ctx.oldPosition ls.s.pos
    let isGeom := collidesWithCircle hitbox ls.s.pos ls.s.radius
    let colliding := lineInt.isSome || isGeom
    let r := obstaclePhase ctx ls o colliding
    if r.2 then r.1
    else
      let ls2 := trackPhase ctx r.1 o lineInt
      if !colliding then ls2
      else damagePhase ctx ls2 o

/-- The candidate loop as a fold. -/
def processList (ctx : TickCtx) (ls : LoopSt) (os : List GObj) : LoopSt :=
  os.foldl (processCandidate ctx) ls

/-- The snapped-out position of the swept correction (src lines 306–309):
the projectile's centre moved out along the intersection normal by its own
radius. -/
def sweptState (ls : LoopSt) (c : Closest) : ProjState :=
  { ls.s with pos := Vec.add (Vec.scale c.normal ls.s.radius) ls.s.pos }

/-- The swept correction (src lines 305–311): if a closest swept-line
intersection was recorded, snap the position out along its normal and run
`handleCollision` against its object. -/
def sweptPhase (ls : LoopSt) : LoopSt :=
  match ls.closest with
  | some c =>
    let r := handleCollisionF (sweptState ls c) ls.died c.obj
    { ls with s := r.1, events := ls.events ++ r.2 }
  | none => ls

/-- The integration prefix of `update` (src lines 156–180): two clamped
half-step displacements around the drag multiplication, rotation advance,
and the threshold classification that can ground the projectile and harshen
drag on overlay floors. -/
def integrate (env : Env) (s0 : ProjState) : ProjState :=
  let halfDt := (1 / 2) * env.dt
  let s1 := { s0 with pos := Vec.add s0.pos (calculateSafeDisplacement s0 halfDt) }
  let s2 := { s1 with vel := Vec.scale s1.vel (1 / (1 + env.dt * s1.drag)) }
  let s3 := { s2 with pos := Vec.add s2.pos (calculateSafeDisplacement s2 halfDt) }
  let s4 := { s3 with rot := normalizeAngle (s3.rot + s3.angVel * env.dt) }
  if decide (Vec.squaredLength s4.vel ≥ impactThresholdSq) then s4
  else
    let sA := { s4 with airborne := false }
    if env.floorOverlay sA.pos sA.layer then { sA with drag := dragHarsh } else sA

/-- The tick-constant context of the candidate loop (src lines 158 and
168–172): pre-integration position, post-integration squared speed,
impact-damage eligibility and amount. -/
def tickCtx (env : Env) (s0 : ProjState) : TickCtx :=
  ⟨s0.pos, Vec.squaredLength (integrate env s0).vel,
    s0.pdef.impactDamage.isSome
      && decide (Vec.squaredLength (integrate env s0).vel ≥ impactThresholdSq),
    s0.pdef.impactDamage.getD 0⟩

/-- The epilogue of `update` (src lines 313–319): clamp the position into
the world bounds inset by the radius, update the owner-grace flag once
250 ms have elapsed, and swap in this tick's damaged set. -/
def finishTick (env : Env) (ls2 : LoopSt) : ProjState × List Event :=
  let sF := ls2.s
  let sF1 := { sF with pos :=
    ⟨clampQ sF.pos.x sF.radius (env.mapWidth - sF.radius),
     clampQ sF.pos.y sF.radius (env.mapHeight - sF.radius)⟩ }
  let sF2 := { sF1 with collideWithOwner :=
    sF1.collideWithOwner || decide (env.now - sF1.spawnTime ≥ 250) }
  ({ sF2 with damagedLastTick := ls2.damagedThisTick }, ls2.events)

/-- `update` (src lines 150–320): C4 short-circuit; integration
(`integrate`); the candidate loop over the spatial query's results; the
swept correction against the closest line intersection (`sweptPhase`);
and the epilogue (`finishTick`).  Returns the new state and the tick's
observable events. -/
def updateF (env : Env) (s0 : ProjState) : ProjState × List Event :=
  if s0.pdef.c4 then ({ s0 with airborne := false }, [])
  else
    finishTick env
      (sweptPhase
        (processList (tickCtx env s0) ⟨integrate env s0, ∅, ∅, none, []⟩
          env.candidates))

/-! ## Lifecycle operations -/

/-- `damage` (src lines 410–420): no-op without a health concept (JS-falsy
check, so also at exactly zero health); otherwise subtract, and at ≤ 0
deregister.  `game.removeProjectile` is modelled from the spec (§4.4/§4.5)
as marking the projectile destroyed. -/
def damageF (s : ProjState) (amount : ℚ) : ProjState :=
  match s.health with
  | none => s
  | some h =>
    if h = 0 then s
    else
      let h1 := h - amount
      if h1 ≤ 0 then { s with health := some h1, dead := true }
      else { s with health := some h1 }

/-- The synchronous part of `detonate` (src lines 125–127): arm the
detonation (one-way `activated`). -/
def detonateF (s : ProjState) : ProjState := { s with activated := true }

/-- The detonation timer callback (src lines 128–147): no-op if the
projectile is already destroyed; otherwise deregister and spawn the
explosion if the definition has one.  `game.removeProjectile` is modelled
from the spec (§4.4/§5: deregistration makes the liveness re-check fail on
a later firing). -/
def fireTimerF (s : ProjState) : ProjState × List Event :=
  if s.dead then (s, [])
  else ({ s with dead := true },
    if s.pdef.hasExplosion then [Event.explode] else [])

/-- An operation applied to a projectile during its life. -/
inductive POp where
  | tick (env : Env)
  | damageOp (amount : ℚ)
  | detonateArm
  | timerFire

/-- Apply one operation to the projectile state. -/
def applyOp (s : ProjState) (op : POp) : ProjState :=
  match op with
  | .tick env => (updateF env s).1
  | .damageOp a => damageF s a
  | .detonateArm => detonateF s
  | .timerFire => (fireTimerF s).1

/-- Apply a sequence of operations. -/
def applyOps (s : ProjState) (ops : List POp) : ProjState := ops.foldl applyOp s

/-! ## Concrete fixtures -/

/-- A baseline throwable definition: plain ballistic grenade, no impact
damage, generous speed cap. -/
def baseDef : ProjDef := ⟨false, none, none, 1000, false⟩

/-- A baseline projectile state at the centre of a 100×100 map. -/
def baseState : ProjState :=
  { pos := ⟨50, 50⟩
    radius := 1
    vel := ⟨0, 0⟩
    rot := 0
    angVel := 7 / 2000
    drag := dragNormal
    airborne := true
    activated := false
    collideWithOwner := false
    currentlyAbove := ∅
    damagedLastTick := ∅
    spawnTime := 0
    layer := 0
    dead := false
    health := none
    ownerId := 99
    pdef := baseDef }

/-- A baseline tick environment: 50 ticks/s on an empty 100×100 map with
no drag-increasing floor overlays. -/
def baseEnv : Env := ⟨1 / 50, 1000, [], fun _ _ => false, 100, 100⟩

/-- Fixture for the flyover-hysteresis counterexample: an alive collidable
obstacle (id 7, circular hitbox of radius 5 around the projectile,
`FlyoverPref.Sometimes`, no door, not a stair). -/
def obstC2 : GObj :=
  ⟨7, .obstacle, false, true, some (.circle ⟨50, 50⟩ 5), 0, .sometimes, false, none, false⟩

/-- Projectile state for the flyover-hysteresis counterexample: obstacle 7
already in `currentlyAbove`, speed between the flyover and high-flyover
thresholds, drag still `Normal`. -/
def sC2 : ProjState :=
  { baseState with vel := ⟨9 / 250, 0⟩, currentlyAbove := {7}, collideWithOwner := true }

/-- Tick environment for the flyover-hysteresis counterexample. -/
def envC2 : Env := { baseEnv with candidates := [obstC2] }

/-- Fixture for the flyover-suppression witness: obstacle 3 with
`FlyoverPref.Always`, hitbox radius 5 around the projectile. -/
def obstW2 : GObj :=
  ⟨3, .obstacle, false, true, some (.circle ⟨50, 50⟩ 5), 0, .always, false, none, false⟩

/-- Projectile state for the flyover-suppression witness: obstacle 3 in
`currentlyAbove`, fast enough to stay flyover-eligible. -/
def sW2 : ProjState :=
  { baseState with vel := ⟨1 / 10, 0⟩, currentlyAbove := {3}, collideWithOwner := true }

/-- Tick environment for the flyover-suppression witness. -/
def envW2 : Env := { baseEnv with candidates := [obstW2] }

/-- The thrower's body: an alive player (id 99 = `ownerId`) overlapping the
projectile. -/
def ownerObj : GObj :=
  ⟨99, .player, false, true, some (.circle ⟨50, 50⟩ 1), 0, .never, false, none, false⟩

/-- Projectile state for the owner-grace claims: impact damage defined,
fast enough to deal it, grace flag still unset. -/
def sC3 : ProjState :=
  { baseState with vel := ⟨1 / 10, 0⟩, pdef := { baseDef with impactDamage := some 40 } }

/-- Tick at exactly the 250 ms threshold (`now - spawnTime = 250`) with the
thrower overlapping. -/
def envC3 : Env := { baseEnv with now := 250, candidates := [ownerObj] }

/-- Tick still inside the grace window (`now - spawnTime = 100`). -/
def envW3 : Env := { baseEnv with now := 100, candidates := [ownerObj] }

/-- An alive collidable obstacle (id 5) overlapping the projectile, for the
anti-chain-reaction witness. -/
def obstC4 : GObj :=
  ⟨5, .obstacle, false, true, some (.circle ⟨50, 50⟩ 5), 0, .never, false, none, false⟩

/-- Projectile state for the anti-chain-reaction witness: obstacle 5 was
damaged last tick; impact damage defined and speed above threshold. -/
def sW4 : ProjState :=
  { baseState with vel := ⟨1 / 10, 0⟩, damagedLastTick := {5}, collideWithOwner := true
                   pdef := { baseDef with impactDamage := some 40 } }

/-- Tick environment for the anti-chain-reaction witness. -/
def envW4 : Env := { baseEnv with candidates := [obstC4] }

/-- Projectile state for the drag-monotonicity counterexample: zero
velocity. -/
def sC7 : ProjState := baseState

/-- Projectile state for the drag-monotonicity witness: nonzero velocity. -/
def sW7 : ProjState := { baseState with vel := ⟨1 / 10, 0⟩ }

/-- Obstacle (id 11, `FlyoverPref.Never`) whose circular hitbox overlaps
the projectile, for the `dt = 0` counterexample. -/
def obstC8 : GObj :=
  ⟨11, .obstacle, false, true, some (.circle ⟨52, 50⟩ 3), 0, .never, false, none, false⟩

/-- Projectile state for the `dt = 0` counterexample. -/
def sC8 : ProjState := { baseState with vel := ⟨1 / 10, 0⟩, collideWithOwner := true }

/-- Zero-`dt` tick with an overlapping obstacle. -/
def envC8 : Env := { baseEnv with dt := 0, candidates := [obstC8] }

/-- A distant obstacle (id 21) that does not overlap the projectile. -/
def obstFar : GObj :=
  ⟨21, .obstacle, false, true, some (.circle ⟨10, 10⟩ 2), 0, .never, false, none, false⟩

/-- Zero-`dt` tick whose only candidate does not collide. -/
def envW8 : Env := { baseEnv with dt := 0, candidates := [obstFar] }

/-- A destroyed projectile with an armed explosive definition. -/
def sDeadC9 : ProjState :=
  { baseState with dead := true, activated := true
                   pdef := { baseDef with hasExplosion := true } }

/-- A live projectile with an explosive definition. -/
def sLiveC9 : ProjState :=
  { baseState with activated := true, pdef := { baseDef with hasExplosion := true } }

/-- Obstacle overlapping a motionless projectile, for the zero-velocity
reflection claim. -/
def obstC10 : GObj :=
  ⟨13, .obstacle, false, true, some (.circle ⟨51, 50⟩ 2), 0, .never, false, none, false⟩

/-- Motionless projectile state (the constructor's initial velocity). -/
def sC10 : ProjState := { baseState with collideWithOwner := true }

/-- First member of the compound-shape counterexample. -/
def hbA : Hitbox := .circle ⟨3 / 2, 0⟩ 1

/-- Second member of the compound-shape counterexample: collides only after
the first member's resolution has translated the projectile. -/
def hbB : Hitbox := .circle ⟨-3, 0⟩ 2

/-! ## Theorems -/

section
set_option allowUnsafeReducibility true
attribute [local semireducible] Rat.mul Rat.inv Rat.add Rat.sub

theorem clampQ_eq_self (v lo hi : ℚ) (h1 : lo ≤ v) (h2 : v ≤ hi) :
    clampQ v lo hi = v := by
  unfold clampQ
  rw [min_eq_left h2, max_eq_right h1]

theorem distanceSquared_self (a : Vec) : distanceSquared a a = 0 := by
  unfold distanceSquared Vec.squaredLength Vec.sub
  ring_nf

mutual
/-- A shape reports a penetration resolution exactly when it passes the
overlap test (the modelled kernel keeps the two consistent, as the spec's
`intersects`/`resolvePenetration` contract implies). -/
theorem resolveHitbox_isSome (h : Hitbox) (p : Vec) (pr : ℚ) (hpr : 0 < pr) :
    (resolveHitbox h p pr).2.isSome = collidesWithCircle h p pr := by
  cases h with
  | circle c r =>
    simp only [resolveHitbox, collidesWithCircle, circleCircleIntersection]
    split <;> simp_all
  | rect lo hi =>
    simp only [resolveHitbox, collidesWithCircle, rectCircleIntersection]
    by_cases hin : lo.x ≤ p.x ∧ p.x ≤ hi.x ∧ lo.y ≤ p.y ∧ p.y ≤ hi.y
    · rw [if_pos hin]
      have hcp : (⟨clampQ p.x lo.x hi.x, clampQ p.y lo.y hi.y⟩ : Vec) = p := by
        refine congrArg₂ Vec.mk ?_ ?_
        · exact clampQ_eq_self _ _ _ hin.1 hin.2.1
        · exact clampQ_eq_self _ _ _ hin.2.2.1 hin.2.2.2
      simp only [hcp, distanceSquared_self, Option.isSome_map, Option.isSome_some]
      have : (0 : ℚ) < pr * pr := mul_pos hpr hpr
      simp [this]
    · rw [if_neg hin]
      have hd : distanceSquared (⟨clampQ p.x lo.x hi.x, clampQ p.y lo.y hi.y⟩ : Vec) p
          = Vec.squaredLength (Vec.sub (⟨clampQ p.x lo.x hi.x, clampQ p.y lo.y hi.y⟩ : Vec) p) := rfl
      split <;> simp_all [distanceSquared]
  | group hs =>
    simp only [resolveHitbox, collidesWithCircle]
    rw [resolveGroupAux_isSome hs p none pr hpr]
    simp
termination_by sizeOf h
/-- The kept resolution of the group loop is non-null exactly when some
member (at its threaded turn) passes the overlap test, or a non-null
accumulator was passed in. -/
theorem resolveGroupAux_isSome (ms : List Hitbox) (p : Vec) (col : Option PRes)
    (pr : ℚ) (hpr : 0 < pr) :
    (resolveGroupAux ms p col pr).2.isSome
      = (collidesAnyCircle ms p pr || col.isSome) := by
  cases ms with
  | nil => simp [resolveGroupAux, collidesAnyCircle]
  | cons h t =>
    simp only [resolveGroupAux, collidesAnyCircle]
    by_cases hc : collidesWithCircle h p pr
    · rw [if_pos hc,
        resolveGroupAux_isSome t (resolveHitbox h p pr).1 (resolveHitbox h p pr).2 pr hpr,
        resolveHitbox_isSome h p pr hpr, hc]
      simp
    · rw [if_neg hc, resolveGroupAux_isSome t p col pr hpr]
      simp [hc]
termination_by sizeOf ms
end

/-- The source group loop (which overwrites the kept resolution with every
colliding member's result, even a null one) agrees with the spec's
keep-the-last-reported-resolution loop, because a colliding member always
reports a resolution. -/
theorem resolveGroupAux_eq_spec (pr : ℚ) (hpr : 0 < pr) :
    ∀ (ms : List Hitbox) (p : Vec) (col : Option PRes),
      resolveGroupAux ms p col pr = resolveGroupSpecAux ms p col pr := by
  intro ms
  induction ms with
  | nil => intro p col; rfl
  | cons h t ih =>
    intro p col
    simp only [resolveGroupAux, resolveGroupSpecAux]
    by_cases hc : collidesWithCircle h p pr
    · rw [if_pos hc, if_pos hc]
      have hs : (resolveHitbox h p pr).2.isSome = true := by
        rw [resolveHitbox_isSome h p pr hpr, hc]
      obtain ⟨c, hcc⟩ := Option.isSome_iff_exists.mp hs
      rw [hcc]
      exact ih _ _
    · rw [if_neg hc, if_neg hc]
      exact ih p col

/-- C5 (amended): when resolving penetration against a compound shape,
members are tested recursively and the resolution kept (and used for the
velocity reflection) is that of the last member that reports a resolution
— computed, however, with the projectile translated by every earlier
colliding member's resolution, so earlier members do contribute to the
outcome through the threaded position. -/
theorem group_keeps_last_reported (ms : List Hitbox) (p : Vec) (pr : ℚ)
    (hpr : 0 < pr) :
    (resolveHitbox (.group ms) p pr).2 = (resolveGroupSpecAux ms p none pr).2 := by
  simp only [resolveHitbox]
  rw [resolveGroupAux_eq_spec pr hpr]

/-- Witness for C5 on the two-member compound fixture. -/
theorem group_keeps_last_reported_witness :
    (0 : ℚ) < 1 ∧
      (resolveHitbox (.group [hbA, hbB]) ⟨0, 0⟩ 1).2
        = (resolveGroupSpecAux [hbA, hbB] ⟨0, 0⟩ none 1).2 :=
  ⟨by norm_num, group_keeps_last_reported [hbA, hbB] ⟨0, 0⟩ 1 (by norm_num)⟩

/-- C5 counterexample: a member other than the last does contribute to the
outcome.  In the group `[hbA, hbB]` the first member's resolution
translates the projectile into contact with `hbB`, so the kept resolution
is `hbB`'s; with `hbA` removed, `hbB` alone reports nothing at all. -/
theorem group_earlier_member_contributes :
    (resolveHitbox (.group [hbA, hbB]) ⟨0, 0⟩ 1).2 = some ⟨⟨1, 0⟩, 1 / 2⟩ ∧
      (resolveHitbox (.group [hbB]) ⟨0, 0⟩ 1).2 = none := by
  constructor <;> decide

/-- Structural summary of `handleCollisionF`: it either only translates
the centre (no event), or translates and reflects, emitting exactly the
`reflect` event for `o`. -/
theorem handleCollisionF_shape (s : ProjState) (died : Finset ℕ) (o : GObj) :
    (∃ p, handleCollisionF s died o = ({ s with pos := p }, [])) ∨
      (∃ p v, handleCollisionF s died o
          = ({ s with pos := p, vel := v }, [Event.reflect o.id])) := by
  simp only [handleCollisionF]
  split
  · exact Or.inl ⟨s.pos, rfl⟩
  · split
    · exact Or.inl ⟨s.pos, rfl⟩
    · split
      · exact Or.inl ⟨s.pos, rfl⟩
      · split
        · exact Or.inl ⟨_, rfl⟩
        · exact Or.inr ⟨_, _, rfl⟩

/-- Structural summary of `finishCollide`: position/angular-velocity
update with no event, or position/velocity/angular-velocity update
emitting exactly `o`'s reflection event. -/
theorem finishCollide_shape (ls : LoopSt) (o : GObj) :
    (∃ p av, finishCollide ls o =
        { ls with s := { ls.s with pos := p, angVel := av } }) ∨
      (∃ p v av, finishCollide ls o =
          { ls with
              s := { ls.s with pos := p, vel := v, angVel := av }
              events := ls.events ++ [Event.reflect o.id] }) := by
  unfold finishCollide
  rcases handleCollisionF_shape ls.s ls.died o with ⟨p, h⟩ | ⟨p, v, h⟩
  · rw [h]
    refine Or.inl ⟨p, ls.s.angVel * (3 / 5), ?_⟩
    simp
  · rw [h]
    exact Or.inr ⟨p, v, ls.s.angVel * (3 / 5), rfl⟩

/-- Structural summary of `obstaclePhase`: a non-obstacle/building is
untouched; otherwise the phase only updates `currentlyAbove`/`drag`
(affecting no member other than `o` itself) and appends the candidate's
`collideCheck` observation (plus a possible stair event). -/
theorem obstaclePhase_shape (ctx : TickCtx) (ls : LoopSt) (o : GObj) (b : Bool) :
    obstaclePhase ctx ls o b = (ls, false) ∨
      (∃ ab dr δ,
        (obstaclePhase ctx ls o b).1 =
          { ls with
              s := { ls.s with currentlyAbove := ab, drag := dr }
              events := ls.events ++ δ } ∧
          (∀ e ∈ δ, e = Event.collideCheck o.id b ∨ e = Event.stair o.id) ∧
          (∀ j, j ≠ o.id → (j ∈ ab ↔ j ∈ ls.s.currentlyAbove))) := by
  by_cases hk : (o.isObstacle || o.isBuilding) = true
  case neg =>
    left
    simp [obstaclePhase, hk]
  case pos =>
  cases b with
  | false =>
    right
    refine ⟨ls.s.currentlyAbove.erase o.id, ls.s.drag,
      [Event.collideCheck o.id false], ?_, by simp,
      fun j hj => by simp [Finset.mem_erase, hj]⟩
    simp [obstaclePhase, hk]
  | true =>
    by_cases hA : canFlyOver ls.s.layer ctx.v2 o = true
    · by_cases hst : (o.isObstacle && o.isStair) = true
      · right
        refine ⟨insert o.id ls.s.currentlyAbove, ls.s.drag,
          [Event.collideCheck o.id true, Event.stair o.id], ?_, by simp,
          fun j hj => by simp [Finset.mem_insert, hj]⟩
        simp [obstaclePhase, hk, hA, hst]
      · right
        refine ⟨insert o.id ls.s.currentlyAbove, ls.s.drag,
          [Event.collideCheck o.id true], ?_, by simp,
          fun j hj => by simp [Finset.mem_insert, hj]⟩
        simp [obstaclePhase, hk, hA, hst]
    · by_cases hst : (o.isObstacle && o.isStair) = true
      · right
        refine ⟨ls.s.currentlyAbove, dragHarsh,
          [Event.collideCheck o.id true, Event.stair o.id], ?_, by simp,
          fun j hj => Iff.rfl⟩
        simp [obstaclePhase, hk, hA, hst]
      · by_cases hm : o.id ∈ ls.s.currentlyAbove
        · right
          refine ⟨ls.s.currentlyAbove, dragHarsh,
            [Event.collideCheck o.id true], ?_, by simp, fun j hj => Iff.rfl⟩
          simp [obstaclePhase, hk, hA, hst, hm]
        · right
          refine ⟨ls.s.currentlyAbove.erase o.id, dragHarsh,
            [Event.collideCheck o.id true], ?_, by simp,
            fun j hj => by simp [Finset.mem_erase, hj]⟩
          simp [obstaclePhase, hk, hA, hst, hm]

/-- Projection summary of `obstaclePhase`. -/
theorem obstaclePhase_proj (ctx : TickCtx) (ls : LoopSt) (o : GObj) (b : Bool) :
    (obstaclePhase ctx ls o b).1.died = ls.died ∧
      (obstaclePhase ctx ls o b).1.damagedThisTick = ls.damagedThisTick ∧
      (obstaclePhase ctx ls o b).1.closest = ls.closest ∧
      (obstaclePhase ctx ls o b).1.s.airborne = ls.s.airborne ∧
      (obstaclePhase ctx ls o b).1.s.collideWithOwner = ls.s.collideWithOwner ∧
      (obstaclePhase ctx ls o b).1.s.damagedLastTick = ls.s.damagedLastTick ∧
      (obstaclePhase ctx ls o b).1.s.ownerId = ls.s.ownerId ∧
      (obstaclePhase ctx ls o b).1.s.spawnTime = ls.s.spawnTime ∧
      (obstaclePhase ctx ls o b).1.s.vel = ls.s.vel ∧
      (∀ j, j ≠ o.id →
        (j ∈ (obstaclePhase ctx ls o b).1.s.currentlyAbove ↔ j ∈ ls.s.currentlyAbove)) ∧
      (∀ e ∈ ls.events, e ∈ (obstaclePhase ctx ls o b).1.events) ∧
      (∀ e, e ∈ (obstaclePhase ctx ls o b).1.events → e ∉ ls.events →
        e = Event.collideCheck o.id b ∨ e = Event.stair o.id) := by
  rcases obstaclePhase_shape ctx ls o b with h | ⟨ab, dr, δ, h, hδ, hab⟩
  · rw [show (obstaclePhase ctx ls o b).1 = ls from by rw [h]]
    exact ⟨rfl, rfl, rfl, rfl, rfl, rfl, rfl, rfl, rfl, fun _ _ => Iff.rfl,
      fun _ he => he, fun _ he hne => absurd he hne⟩
  · rw [h]
    refine ⟨rfl, rfl, rfl, rfl, rfl, rfl, rfl, rfl, rfl, hab, ?_, ?_⟩
    · intro e he
      exact List.mem_append_left _ he
    · intro e he hne
      rcases List.mem_append.mp he with h1 | h1
      · exact absurd h1 hne
      · exact hδ e h1

/-- `trackPhase` only updates the tracked closest intersection. -/
theorem trackPhase_fields (ctx : TickCtx) (ls : LoopSt) (o : GObj)
    (li : Option LineInt) :
    (trackPhase ctx ls o li).s = ls.s ∧
      (trackPhase ctx ls o li).died = ls.died ∧
      (trackPhase ctx ls o li).damagedThisTick = ls.damagedThisTick ∧
      (trackPhase ctx ls o li).events = ls.events := by
  unfold trackPhase
  split
  · dsimp only
    split
    · simp
    · split <;> simp
  · simp

/-- The closest-intersection record is either untouched or overwritten
with the current candidate. -/
theorem trackPhase_closest (ctx : TickCtx) (ls : LoopSt) (o : GObj)
    (li : Option LineInt) :
    (trackPhase ctx ls o li).closest = ls.closest ∨
      ∃ d n, (trackPhase ctx ls o li).closest = some ⟨d, n, o⟩ := by
  unfold trackPhase
  split
  · dsimp only
    split
    · exact Or.inr ⟨_, _, rfl⟩
    · split
      · exact Or.inr ⟨_, _, rfl⟩
      · exact Or.inl rfl
  · exact Or.inl rfl

/-- Projection summary of `finishCollide`: bookkeeping and all state
fields other than position/velocity/angular velocity are untouched; events
only grow, any new event is `o`'s reflection, and the velocity moves only
together with a reflection event. -/
theorem finishCollide_proj (ls : LoopSt) (o : GObj) :
    (finishCollide ls o).died = ls.died ∧
      (finishCollide ls o).damagedThisTick = ls.damagedThisTick ∧
      (finishCollide ls o).closest = ls.closest ∧
      (finishCollide ls o).s.airborne = ls.s.airborne ∧
      (finishCollide ls o).s.collideWithOwner = ls.s.collideWithOwner ∧
      (finishCollide ls o).s.damagedLastTick = ls.s.damagedLastTick ∧
      (finishCollide ls o).s.ownerId = ls.s.ownerId ∧
      (finishCollide ls o).s.spawnTime = ls.s.spawnTime ∧
      (finishCollide ls o).s.currentlyAbove = ls.s.currentlyAbove ∧
      (∀ e ∈ ls.events, e ∈ (finishCollide ls o).events) ∧
      (∀ e, e ∈ (finishCollide ls o).events → e ∉ ls.events → e = Event.reflect o.id) ∧
      (Event.reflect o.id ∉ (finishCollide ls o).events →
        (finishCollide ls o).s.vel = ls.s.vel) := by
  rcases finishCollide_shape ls o with ⟨p, av, h⟩ | ⟨p, v, av, h⟩ <;> rw [h]
  · exact ⟨rfl, rfl, rfl, rfl, rfl, rfl, rfl, rfl, rfl, fun _ he => he,
      fun _ he hne => absurd he hne, fun _ => rfl⟩
  · refine ⟨rfl, rfl, rfl, rfl, rfl, rfl, rfl, rfl, rfl, ?_, ?_, ?_⟩
    · intro e he
      exact List.mem_append_left _ he
    · intro e he hne
      rcases List.mem_append.mp he with h1 | h1
      · exact absurd h1 hne
      · simpa using h1
    · intro hni
      exact absurd (List.mem_append_right _ (by simp)) hni

/-- Projection summary of `damagePhase`: closest record and the untouched
state fields are preserved; events only grow; any new event is `o`'s
damage (possible only when `o` was not damaged last tick) or `o`'s
reflection; velocity moves only together with a reflection event. -/
theorem damagePhase_proj (ctx : TickCtx) (ls : LoopSt) (o : GObj) :
    (damagePhase ctx ls o).closest = ls.closest ∧
      (damagePhase ctx ls o).s.airborne = ls.s.airborne ∧
      (damagePhase ctx ls o).s.collideWithOwner = ls.s.collideWithOwner ∧
      (damagePhase ctx ls o).s.damagedLastTick = ls.s.damagedLastTick ∧
      (damagePhase ctx ls o).s.ownerId = ls.s.ownerId ∧
      (damagePhase ctx ls o).s.spawnTime = ls.s.spawnTime ∧
      (damagePhase ctx ls o).s.currentlyAbove = ls.s.currentlyAbove ∧
      (∀ e ∈ ls.events, e ∈ (damagePhase ctx ls o).events) ∧
      (∀ e, e ∈ (damagePhase ctx ls o).events → e ∉ ls.events →
        e = Event.reflect o.id ∨
          ∃ a, e = Event.damage o.id a ∧ o.id ∉ ls.s.damagedLastTick) ∧
      (Event.reflect o.id ∉ (damagePhase ctx ls o).events →
        (damagePhase ctx ls o).s.vel = ls.s.vel) := by
  unfold damagePhase
  split
  case isTrue hc =>
    have hnm : o.id ∉ ls.s.damagedLastTick := by
      have h2 := hc
      simp only [Bool.and_eq_true, Bool.not_eq_true', decide_eq_false_iff_not] at h2
      exact h2.2
    split
    case isTrue hd =>
      refine ⟨rfl, rfl, rfl, rfl, rfl, rfl, rfl, ?_, ?_, fun _ => rfl⟩
      · intro e he
        exact List.mem_append_left _ he
      · intro e he hne
        rcases List.mem_append.mp he with h1 | h1
        · exact absurd h1 hne
        · exact Or.inr ⟨_, by simpa using h1, hnm⟩
    case isFalse hd =>
      obtain ⟨f1, f2, f3, f4, f5, f6, f7, f7t, f8, fmem, fchar, fvel⟩ :=
        finishCollide_proj (damageSurvivor ctx ls o) o
      refine ⟨f3, f4, f5, f6, f7, f7t, f8, ?_, ?_, fun h => fvel h⟩
      · intro e he
        exact fmem e (List.mem_append_left _ he)
      · intro e he hne
        by_cases hs : e ∈ (damageSurvivor ctx ls o).events
        · rcases List.mem_append.mp hs with h1 | h1
          · exact absurd h1 hne
          · exact Or.inr ⟨_, by simpa using h1, hnm⟩
        · exact Or.inl (fchar e he hs)
  case isFalse hc =>
    obtain ⟨f1, f2, f3, f4, f5, f6, f7, f7t, f8, fmem, fchar, fvel⟩ := finishCollide_proj ls o
    exact ⟨f3, f4, f5, f6, f7, f7t, f8, fmem,
      fun e he hne => Or.inl (fchar e he hne), fvel⟩

/-- Any event newly appended by `obstaclePhase` is a `collideCheck` or
stair event for the candidate. -/
theorem obstaclePhase_char (ctx : TickCtx) (ls : LoopSt) (o : GObj) (b : Bool) :
    ∀ e, e ∈ (obstaclePhase ctx ls o b).1.events → e ∉ ls.events →
      e = Event.collideCheck o.id true ∨ e = Event.collideCheck o.id false ∨
        e = Event.stair o.id := by
  obtain ⟨-, -, -, -, -, -, -, -, -, -, -, ochar⟩ := obstaclePhase_proj ctx ls o b
  intro e he hne
  rcases ochar e he hne with h | h
  · cases b
    · exact Or.inr (Or.inl h)
    · exact Or.inl h
  · exact Or.inr (Or.inr h)

/-- Projection summary of one candidate-loop iteration: the fields the
loop never writes are preserved; `currentlyAbove` changes only at the
candidate's own id; the closest record is untouched or overwritten with
this candidate; events only grow; any new event carries the candidate's id
(damage additionally requiring the candidate not to be in last tick's
damaged set); and the velocity moves only together with a reflection
event. -/
theorem processCandidate_proj (ctx : TickCtx) (ls : LoopSt) (o : GObj) :
    (processCandidate ctx ls o).s.airborne = ls.s.airborne ∧
      (processCandidate ctx ls o).s.collideWithOwner = ls.s.collideWithOwner ∧
      (processCandidate ctx ls o).s.damagedLastTick = ls.s.damagedLastTick ∧
      (processCandidate ctx ls o).s.ownerId = ls.s.ownerId ∧
      (processCandidate ctx ls o).s.spawnTime = ls.s.spawnTime ∧
      (∀ j, j ≠ o.id →
        (j ∈ (processCandidate ctx ls o).s.currentlyAbove ↔ j ∈ ls.s.currentlyAbove)) ∧
      ((processCandidate ctx ls o).closest = ls.closest ∨
        ∃ d n, (processCandidate ctx ls o).closest = some ⟨d, n, o⟩) ∧
      (∀ e ∈ ls.events, e ∈ (processCandidate ctx ls o).events) ∧
      (∀ e, e ∈ (processCandidate ctx ls o).events → e ∉ ls.events →
        e = Event.collideCheck o.id true ∨ e = Event.collideCheck o.id false ∨
          e = Event.stair o.id ∨ e = Event.reflect o.id ∨
          ∃ a, e = Event.damage o.id a ∧ o.id ∉ ls.s.damagedLastTick) ∧
      (Event.reflect o.id ∉ (processCandidate ctx ls o).events →
        (processCandidate ctx ls o).s.vel = ls.s.vel) := by
  unfold processCandidate
  split
  · exact ⟨rfl, rfl, rfl, rfl, rfl, fun _ _ => Iff.rfl, Or.inl rfl, fun _ he => he,
      fun _ he hne => absurd he hne, fun _ => rfl⟩
  · split
    · exact ⟨rfl, rfl, rfl, rfl, rfl, fun _ _ => Iff.rfl, Or.inl rfl, fun _ he => he,
        fun _ he hne => absurd he hne, fun _ => rfl⟩
    · rename_i hitbox heq
      dsimp only
      split
      case isTrue hskip =>
        obtain ⟨-, -, o3, o4, o5, o6, o7, o7t, o8, oab, omem, -⟩ :=
          obstaclePhase_proj ctx ls o
            ((intersectsLineH hitbox ctx.oldPosition ls.s.pos).isSome
              || collidesWithCircle hitbox ls.s.pos ls.s.radius)
        refine ⟨o4, o5, o6, o7, o7t, oab, Or.inl o3, omem, ?_, fun _ => o8⟩
        intro e he hne
        rcases obstaclePhase_char ctx ls o _ e he hne with h | h | h
        · exact Or.inl h
        · exact Or.inr (Or.inl h)
        · exact Or.inr (Or.inr (Or.inl h))
      case isFalse hskip =>
        obtain ⟨-, -, o3, o4, o5, o6, o7, o7t, o8, oab, omem, -⟩ :=
          obstaclePhase_proj ctx ls o
            ((intersectsLineH hitbox ctx.oldPosition ls.s.pos).isSome
              || collidesWithCircle hitbox ls.s.pos ls.s.radius)
        obtain ⟨ts, td, tdm, tev⟩ :=
          trackPhase_fields ctx
            (obstaclePhase ctx ls o
              ((intersectsLineH hitbox ctx.oldPosition ls.s.pos).isSome
                || collidesWithCircle hitbox ls.s.pos ls.s.radius)).1
            o (intersectsLineH hitbox ctx.oldPosition ls.s.pos)
        have tcl :=
          trackPhase_closest ctx
            (obstaclePhase ctx ls o
              ((intersectsLineH hitbox ctx.oldPosition ls.s.pos).isSome
                || collidesWithCircle hitbox ls.s.pos ls.s.radius)).1
            o (intersectsLineH hitbox ctx.oldPosition ls.s.pos)
        split
        case isTrue hncol =>
          refine ⟨by rw [ts, o4], by rw [ts, o5], by rw [ts, o6], by rw [ts, o7],
            by rw [ts, o7t], ?_, ?_, ?_, ?_, fun _ => by rw [ts, o8]⟩
          · intro j hj
            rw [ts]
            exact oab j hj
          · rcases tcl with h | ⟨d, n, h⟩
            · exact Or.inl (by rw [h, o3])
            · exact Or.inr ⟨d, n, h⟩
          · intro e he
            rw [tev]
            exact omem e he
          · intro e he hne
            rw [tev] at he
            rcases obstaclePhase_char ctx ls o _ e he hne with h | h | h
            · exact Or.inl h
            · exact Or.inr (Or.inl h)
            · exact Or.inr (Or.inr (Or.inl h))
        case isFalse hcol =>
          obtain ⟨d1, d2, d3, d4, d5, d5t, d6, dmem, dchar, dvel⟩ :=
            damagePhase_proj ctx
              (trackPhase ctx
                (obstaclePhase ctx ls o
                  ((intersectsLineH hitbox ctx.oldPosition ls.s.pos).isSome
                    || collidesWithCircle hitbox ls.s.pos ls.s.radius)).1
                o (intersectsLineH hitbox ctx.oldPosition ls.s.pos))
              o
          refine ⟨by rw [d2, ts, o4], by rw [d3, ts, o5], by rw [d4, ts, o6],
            by rw [d5, ts, o7], by rw [d5t, ts, o7t], ?_, ?_, ?_, ?_, ?_⟩
          · intro j hj
            rw [d6, ts]
            exact oab j hj
          · rw [d1]
            rcases tcl with h | ⟨d, n, h⟩
            · exact Or.inl (by rw [h, o3])
            · exact Or.inr ⟨d, n, h⟩
          · intro e he
            exact dmem e (by rw [tev]; exact omem e he)
          · intro e he hne
            by_cases hmid : e ∈ (trackPhase ctx
                (obstaclePhase ctx ls o
                  ((intersectsLineH hitbox ctx.oldPosition ls.s.pos).isSome
                    || collidesWithCircle hitbox ls.s.pos ls.s.radius)).1
                o (intersectsLineH hitbox ctx.oldPosition ls.s.pos)).events
            · rw [tev] at hmid
              rcases obstaclePhase_char ctx ls o _ e hmid hne with h | h | h
              · exact Or.inl h
              · exact Or.inr (Or.inl h)
              · exact Or.inr (Or.inr (Or.inl h))
            · rcases dchar e he hmid with h | ⟨a, h, hda⟩
              · exact Or.inr (Or.inr (Or.inr (Or.inl h)))
              · refine Or.inr (Or.inr (Or.inr (Or.inr ⟨a, h, ?_⟩)))
                rw [ts, o6] at hda
                exact hda
          · intro hni
            have h1 : Event.reflect o.id ∉ (trackPhase ctx
                (obstaclePhase ctx ls o
                  ((intersectsLineH hitbox ctx.oldPosition ls.s.pos).isSome
                    || collidesWithCircle hitbox ls.s.pos ls.s.radius)).1
                o (intersectsLineH hitbox ctx.oldPosition ls.s.pos)).events :=
              fun hmem => hni (dmem _ hmem)
            rw [dvel hni, ts, o8]

/-- Projection summary of `sweptPhase`: bookkeeping and all state fields
other than position/velocity are untouched; any new event is the
reflection off the tracked closest object; velocity moves only together
with a reflection event. -/
theorem sweptPhase_proj (ls : LoopSt) :
    (sweptPhase ls).s.airborne = ls.s.airborne ∧
      (sweptPhase ls).s.collideWithOwner = ls.s.collideWithOwner ∧
      (sweptPhase ls).s.damagedLastTick = ls.s.damagedLastTick ∧
      (sweptPhase ls).s.ownerId = ls.s.ownerId ∧
      (sweptPhase ls).s.spawnTime = ls.s.spawnTime ∧
      (sweptPhase ls).s.currentlyAbove = ls.s.currentlyAbove ∧
      (sweptPhase ls).damagedThisTick = ls.damagedThisTick ∧
      (∀ e ∈ ls.events, e ∈ (sweptPhase ls).events) ∧
      (∀ e, e ∈ (sweptPhase ls).events → e ∉ ls.events →
        ∃ c, ls.closest = some c ∧ e = Event.reflect c.obj.id) ∧
      ((∀ j, Event.reflect j ∉ (sweptPhase ls).events) →
        (sweptPhase ls).s.vel = ls.s.vel) := by
  unfold sweptPhase
  split
  case h_1 c heq =>
    dsimp only
    rcases handleCollisionF_shape (sweptState ls c) ls.died c.obj
      with ⟨p, h⟩ | ⟨p, v, h⟩ <;> rw [h]
    · refine ⟨rfl, rfl, rfl, rfl, rfl, rfl, rfl, ?_, ?_, fun _ => rfl⟩
      · intro e he
        simpa using he
      · intro e he hne
        simp only [List.append_nil] at he
        exact absurd he hne
    · refine ⟨rfl, rfl, rfl, rfl, rfl, rfl, rfl, ?_, ?_, ?_⟩
      · intro e he
        exact List.mem_append_left _ he
      · intro e he hne
        rcases List.mem_append.mp he with h1 | h1
        · exact absurd h1 hne
        · exact ⟨c, heq, by simpa using h1⟩
      · intro hno
        exact absurd (List.mem_append_right _ (by simp)) (hno c.obj.id)
  case h_2 =>
    exact ⟨rfl, rfl, rfl, rfl, rfl, rfl, rfl, fun _ he => he,
      fun _ he hne => absurd he hne, fun _ => rfl⟩

/-- Unfolding equation of the candidate loop. -/
theorem processList_cons (ctx : TickCtx) (ls : LoopSt) (o : GObj) (t : List GObj) :
    processList ctx ls (o :: t) = processList ctx (processCandidate ctx ls o) t := rfl

/-- Projection summary of the whole candidate loop: fields the loop never
writes are preserved and events only grow. -/
theorem processList_proj (ctx : TickCtx) (os : List GObj) : ∀ ls : LoopSt,
    (processList ctx ls os).s.airborne = ls.s.airborne ∧
      (processList ctx ls os).s.collideWithOwner = ls.s.collideWithOwner ∧
      (processList ctx ls os).s.damagedLastTick = ls.s.damagedLastTick ∧
      (processList ctx ls os).s.ownerId = ls.s.ownerId ∧
      (processList ctx ls os).s.spawnTime = ls.s.spawnTime ∧
      (∀ e ∈ ls.events, e ∈ (processList ctx ls os).events) := by
  induction os with
  | nil =>
    intro ls
    exact ⟨rfl, rfl, rfl, rfl, rfl, fun _ he => he⟩
  | cons o t ih =>
    intro ls
    obtain ⟨p1, p2, p3, p4, p5, -, -, pmem, -, -⟩ := processCandidate_proj ctx ls o
    obtain ⟨i1, i2, i3, i4, i5, imem⟩ := ih (processCandidate ctx ls o)
    rw [processList_cons]
    exact ⟨by rw [i1, p1], by rw [i2, p2], by rw [i3, p3], by rw [i4, p4],
      by rw [i5, p5], fun e he => imem e (pmem e he)⟩

/-- If no reflection event at all is emitted by the loop, the velocity is
unchanged across it. -/
theorem processList_vel (ctx : TickCtx) (os : List GObj) : ∀ ls : LoopSt,
    (∀ j, Event.reflect j ∉ (processList ctx ls os).events) →
    (processList ctx ls os).s.vel = ls.s.vel := by
  induction os with
  | nil =>
    intro ls _
    rfl
  | cons o t ih =>
    intro ls hno
    rw [processList_cons] at hno ⊢
    obtain ⟨-, -, -, -, -, imem⟩ := processList_proj ctx t (processCandidate ctx ls o)
    obtain ⟨-, -, -, -, -, -, -, -, -, pvel⟩ := processCandidate_proj ctx ls o
    rw [ih _ hno, pvel fun hmem => hno o.id (imem _ hmem)]

/-- A target in last tick's damaged set is never damaged by the loop. -/
theorem processList_damage (ctx : TickCtx) (os : List GObj) : ∀ (ls : LoopSt) (i : ℕ) (a : ℚ),
    i ∈ ls.s.damagedLastTick →
    Event.damage i a ∉ ls.events →
    Event.damage i a ∉ (processList ctx ls os).events := by
  induction os with
  | nil =>
    intro ls i a _ hno
    exact hno
  | cons o t ih =>
    intro ls i a hmem hno
    rw [processList_cons]
    obtain ⟨-, -, p3, -, -, -, -, -, pchar, -⟩ := processCandidate_proj ctx ls o
    refine ih _ i a (by rw [p3]; exact hmem) ?_
    intro hcontra
    rcases pchar _ hcontra hno with h | h | h | h | ⟨a2, heq, hnm⟩
    · exact Event.noConfusion h
    · exact Event.noConfusion h
    · exact Event.noConfusion h
    · exact Event.noConfusion h
    · have h1 : i = o.id ∧ a = a2 := by simpa using heq
      exact hnm (h1.1 ▸ hmem)

/-- A skipped candidate leaves the loop state untouched. -/
theorem processCandidate_skip (ctx : TickCtx) (ls : LoopSt) (o : GObj)
    (h : loopSkip ctx ls.s ls.died o = true) : processCandidate ctx ls o = ls := by
  unfold processCandidate
  rw [if_pos h]

/-- During the owner-grace window the thrower's own body always trips the
candidate-skip guard. -/
theorem loopSkip_owner (ctx : TickCtx) (s : ProjState) (died : Finset ℕ) (o : GObj)
    (hpl : o.kind = ObjKind.player) (hflag : s.collideWithOwner = false)
    (hid : o.id = s.ownerId) : loopSkip ctx s died o = true := by
  unfold loopSkip
  simp [GObj.isObstacle, GObj.isBuilding, hpl, hflag, hid]

/-- The loop neither damages nor reflects off the owner while the grace
flag is unset, and never records the owner as the closest swept target. -/
theorem processList_owner (ctx : TickCtx) (os : List GObj) (w : ℕ) : ∀ ls : LoopSt,
    ls.s.ownerId = w →
    ls.s.collideWithOwner = false →
    (∀ o ∈ os, o.id = w → o.kind = ObjKind.player) →
    (∀ a, Event.damage w a ∉ ls.events) →
    Event.reflect w ∉ ls.events →
    (∀ c, ls.closest = some c → c.obj.id ≠ w) →
    (∀ a, Event.damage w a ∉ (processList ctx ls os).events) ∧
      Event.reflect w ∉ (processList ctx ls os).events ∧
      (∀ c, (processList ctx ls os).closest = some c → c.obj.id ≠ w) := by
  induction os with
  | nil =>
    intro ls _ _ _ hda hre hcl
    exact ⟨hda, hre, hcl⟩
  | cons o t ih =>
    intro ls hw hflag hkind hda hre hcl
    rw [processList_cons]
    by_cases hid : o.id = w
    · have hskip : processCandidate ctx ls o = ls :=
        processCandidate_skip ctx ls o
          (loopSkip_owner ctx ls.s ls.died o (hkind o (by simp) hid) hflag (hid.trans hw.symm))
      rw [hskip]
      exact ih ls hw hflag (fun o2 ho2 => hkind o2 (by simp [ho2])) hda hre hcl
    · obtain ⟨-, p2, -, p4, -, -, pcl, pmem, pchar, -⟩ := processCandidate_proj ctx ls o
      refine ih _ (by rw [p4, hw]) (by rw [p2, hflag])
        (fun o2 ho2 => hkind o2 (by simp [ho2])) ?_ ?_ ?_
      · intro a hcontra
        rcases pchar _ hcontra (hda a) with h | h | h | h | ⟨a2, heq, -⟩
        · exact Event.noConfusion h
        · exact Event.noConfusion h
        · exact Event.noConfusion h
        · exact Event.noConfusion h
        · exact hid ((by simpa using heq : w = o.id ∧ a = a2).1.symm)
      · intro hcontra
        rcases pchar _ hcontra hre with h | h | h | h | ⟨a2, heq, -⟩
        · exact Event.noConfusion h
        · exact Event.noConfusion h
        · exact Event.noConfusion h
        · exact hid ((by simpa using h : w = o.id).symm)
        · exact Event.noConfusion heq
      · intro c hc
        rcases pcl with h | ⟨d, n, h⟩
        · exact hcl c (h ▸ hc)
        · rw [h] at hc
          cases hc
          exact fun hco => hid hco
/-- A non-colliding obstacle/building candidate records a negative
`collideCheck` observation and does not `continue`. -/
theorem obstaclePhase_kind_false (ctx : TickCtx) (ls : LoopSt) (o : GObj)
    (hkind : (o.isObstacle || o.isBuilding) = true) :
    (obstaclePhase ctx ls o false).2 = false ∧
      Event.collideCheck o.id false ∈ (obstaclePhase ctx ls o false).1.events := by
  unfold obstaclePhase
  simp [hkind]

/-- A colliding obstacle/building already in `currentlyAbove` always
`continue`s: it stays in the set, is never tracked as closest, and the
only events recorded for it are the positive `collideCheck` observation
and a possible stair interaction. -/
theorem obstaclePhase_above (ctx : TickCtx) (ls : LoopSt) (o : GObj)
    (hkind : (o.isObstacle || o.isBuilding) = true)
    (hmem : o.id ∈ ls.s.currentlyAbove) :
    (obstaclePhase ctx ls o true).2 = true ∧
      o.id ∈ (obstaclePhase ctx ls o true).1.s.currentlyAbove ∧
      (obstaclePhase ctx ls o true).1.closest = ls.closest ∧
      (∀ e ∈ ls.events, e ∈ (obstaclePhase ctx ls o true).1.events) ∧
      (∀ e, e ∈ (obstaclePhase ctx ls o true).1.events → e ∉ ls.events →
        e = Event.collideCheck o.id true ∨ e = Event.stair o.id) := by
  obtain ⟨-, -, o3, -, -, -, -, -, -, -, omem, ochar⟩ := obstaclePhase_proj ctx ls o true
  refine ⟨?_, ?_, o3, omem, ochar⟩
  · unfold obstaclePhase
    by_cases hA : canFlyOver ls.s.layer ctx.v2 o = true <;>
      by_cases hst : (o.isObstacle && o.isStair) = true <;>
        simp [hkind, hA, hst, hmem]
  · unfold obstaclePhase
    by_cases hA : canFlyOver ls.s.layer ctx.v2 o = true <;>
      by_cases hst : (o.isObstacle && o.isStair) = true <;>
        simp [hkind, hA, hst, hmem, Finset.mem_insert]
/-- One loop iteration on a candidate already in `currentlyAbove`: either
the candidate was observed as non-colliding (negative `collideCheck`), or
the iteration `continue`d — the candidate stays in the set, is not tracked
as closest, and at most a positive `collideCheck` and a stair event are
recorded. -/
theorem processCandidate_above (ctx : TickCtx) (ls : LoopSt) (o : GObj) (i : ℕ)
    (hid : o.id = i) (hmem : i ∈ ls.s.currentlyAbove)
    (hkind : (o.isObstacle || o.isBuilding) = true) :
    Event.collideCheck i false ∈ (processCandidate ctx ls o).events ∨
      (i ∈ (processCandidate ctx ls o).s.currentlyAbove ∧
        (processCandidate ctx ls o).closest = ls.closest ∧
        (∀ e ∈ ls.events, e ∈ (processCandidate ctx ls o).events) ∧
        (∀ e, e ∈ (processCandidate ctx ls o).events → e ∉ ls.events →
          e = Event.collideCheck i true ∨ e = Event.stair i)) := by
  subst hid
  unfold processCandidate
  split
  · exact Or.inr ⟨hmem, rfl, fun _ he => he, fun _ he hne => absurd he hne⟩
  · split
    · exact Or.inr ⟨hmem, rfl, fun _ he => he, fun _ he hne => absurd he hne⟩
    · rename_i hitbox heq
      dsimp only
      cases hcol : ((intersectsLineH hitbox ctx.oldPosition ls.s.pos).isSome
          || collidesWithCircle hitbox ls.s.pos ls.s.radius) with
      | true =>
        obtain ⟨h2, hmem2, hcl2, hmemev, hchar2⟩ := obstaclePhase_above ctx ls o hkind hmem
        rw [if_pos h2]
        exact Or.inr ⟨hmem2, hcl2, hmemev, hchar2⟩
      | false =>
        obtain ⟨h2, hev⟩ := obstaclePhase_kind_false ctx ls o hkind
        rw [if_neg (by simp [h2])]
        simp only [Bool.not_false, if_true]
        obtain ⟨-, -, -, tev⟩ := trackPhase_fields ctx (obstaclePhase ctx ls o false).1 o
          (intersectsLineH hitbox ctx.oldPosition ls.s.pos)
        left
        rw [tev]
        exact hev
/-- Loop-level flyover hysteresis: if every `collideCheck` the loop records
for id `i` is positive, an id in `currentlyAbove` whose candidates are all
obstacles/buildings stays in the set, receives no damage or reflection,
and never becomes the tracked closest object. -/
theorem processList_above (ctx : TickCtx) (os : List GObj) (i : ℕ) : ∀ ls : LoopSt,
    i ∈ ls.s.currentlyAbove →
    (∀ o ∈ os, o.id = i → (o.isObstacle || o.isBuilding) = true) →
    (∀ a, Event.damage i a ∉ ls.events) →
    Event.reflect i ∉ ls.events →
    (∀ c, ls.closest = some c → c.obj.id ≠ i) →
    (∀ b, Event.collideCheck i b ∈ (processList ctx ls os).events → b = true) →
    i ∈ (processList ctx ls os).s.currentlyAbove ∧
      (∀ a, Event.damage i a ∉ (processList ctx ls os).events) ∧
      Event.reflect i ∉ (processList ctx ls os).events ∧
      (∀ c, (processList ctx ls os).closest = some c → c.obj.id ≠ i) := by
  induction os with
  | nil =>
    intro ls hmem _ hda hre hcl _
    exact ⟨hmem, hda, hre, hcl⟩
  | cons o t ih =>
    intro ls hmem hkind hda hre hcl hcc
    rw [processList_cons] at hcc ⊢
    obtain ⟨-, -, -, -, -, imem⟩ := processList_proj ctx t (processCandidate ctx ls o)
    by_cases hid : o.id = i
    · rcases processCandidate_above ctx ls o i hid hmem (hkind o (by simp) hid)
        with h | ⟨hmem2, hcl2, hmemev, hchar2⟩
      · exact absurd (hcc false (imem _ h)) (by simp)
      · refine ih _ hmem2 (fun o2 ho2 => hkind o2 (by simp [ho2])) ?_ ?_ ?_ hcc
        · intro a hcontra
          rcases (em (Event.damage i a ∈ ls.events)) with hin | hout
          · exact hda a hin
          · rcases hchar2 _ hcontra hout with h | h <;> exact Event.noConfusion h
        · intro hcontra
          rcases (em (Event.reflect i ∈ ls.events)) with hin | hout
          · exact hre hin
          · rcases hchar2 _ hcontra hout with h | h <;> exact Event.noConfusion h
        · intro c hc
          exact hcl c (hcl2 ▸ hc)
    · obtain ⟨-, -, -, -, -, pab, pcl, -, pchar, -⟩ := processCandidate_proj ctx ls o
      refine ih _ ((pab i fun h => hid h.symm).mpr hmem) (fun o2 ho2 => hkind o2 (by simp [ho2]))
        ?_ ?_ ?_ hcc
      · intro a hcontra
        rcases pchar _ hcontra (hda a) with h | h | h | h | ⟨a2, heq, -⟩
        · exact Event.noConfusion h
        · exact Event.noConfusion h
        · exact Event.noConfusion h
        · exact Event.noConfusion h
        · exact hid ((by simpa using heq : i = o.id ∧ a = a2).1.symm)
      · intro hcontra
        rcases pchar _ hcontra hre with h | h | h | h | ⟨a2, heq, -⟩
        · exact Event.noConfusion h
        · exact Event.noConfusion h
        · exact Event.noConfusion h
        · exact hid ((by simpa using h : i = o.id).symm)
        · exact Event.noConfusion heq
      · intro c hc
        rcases pcl with h | ⟨d, n, h⟩
        · exact hcl c (h ▸ hc)
        · rw [h] at hc
          cases hc
          exact fun hco => hid hco
/-- `update` on a C4 projectile only grounds it. -/
theorem updateF_c4 (env : Env) (s : ProjState) (h : s.pdef.c4 = true) :
    updateF env s = ({ s with airborne := false }, []) := by
  unfold updateF
  rw [if_pos h]

/-- `update` on a ballistic projectile is the staged pipeline. -/
theorem updateF_run (env : Env) (s : ProjState) (h : s.pdef.c4 = false) :
    updateF env s =
      finishTick env
        (sweptPhase
          (processList (tickCtx env s) ⟨integrate env s, ∅, ∅, none, []⟩
            env.candidates)) := by
  unfold updateF
  rw [if_neg (by simp [h])]

/-- Projection summary of `integrate`: bookkeeping fields survive, the
velocity is exactly the drag-scaled one, and `airborne` is never raised. -/
theorem integrate_proj (env : Env) (s0 : ProjState) :
    (integrate env s0).currentlyAbove = s0.currentlyAbove ∧
      (integrate env s0).damagedLastTick = s0.damagedLastTick ∧
      (integrate env s0).collideWithOwner = s0.collideWithOwner ∧
      (integrate env s0).ownerId = s0.ownerId ∧
      (integrate env s0).spawnTime = s0.spawnTime ∧
      (integrate env s0).vel = Vec.scale s0.vel (1 / (1 + env.dt * s0.drag)) := by
  unfold integrate
  dsimp only
  split
  · exact ⟨rfl, rfl, rfl, rfl, rfl, rfl⟩
  · split
    · exact ⟨rfl, rfl, rfl, rfl, rfl, rfl⟩
    · exact ⟨rfl, rfl, rfl, rfl, rfl, rfl⟩

/-- `integrate` never raises the airborne flag. -/
theorem integrate_airborne (env : Env) (s0 : ProjState) (h : s0.airborne = false) :
    (integrate env s0).airborne = false := by
  unfold integrate
  dsimp only
  split
  · exact h
  · split <;> rfl

/-- C6: the airborne flag is monotone — once false it stays false across
any sequence of ticks, damage calls, detonation arming and timer firings. -/
theorem airborne_monotone (s : ProjState) (ops : List POp) (h : s.airborne = false) :
    (applyOps s ops).airborne = false := by
  induction ops generalizing s with
  | nil => exact h
  | cons op t ih =>
    refine ih (applyOp s op) ?_
    cases op with
    | tick env =>
      show (updateF env s).1.airborne = false
      by_cases hc4 : s.pdef.c4 = true
      · rw [updateF_c4 env s hc4]
      · rw [updateF_run env s (by simpa using hc4)]
        have h1 := integrate_airborne env s h
        obtain ⟨a1, -, -, -, -, -⟩ :=
          processList_proj (tickCtx env s) env.candidates ⟨integrate env s, ∅, ∅, none, []⟩
        obtain ⟨w1, -⟩ := sweptPhase_proj
          (processList (tickCtx env s) ⟨integrate env s, ∅, ∅, none, []⟩ env.candidates)
        show (sweptPhase _).s.airborne = false
        rw [w1, a1]
        exact h1
    | damageOp a =>
      show (damageF s a).airborne = false
      unfold damageF
      split
      · exact h
      · split
        · exact h
        · dsimp only
          split <;> exact h
    | detonateArm => exact h
    | timerFire =>
      show (fireTimerF s).1.airborne = false
      unfold fireTimerF
      split
      · exact h
      · exact h

/-- Witness for C6: a grounded projectile stays grounded over a tick, a
damage call, arming and a timer firing. -/
theorem airborne_monotone_witness :
    (applyOps { baseState with airborne := false }
      [POp.tick baseEnv, POp.damageOp 5, POp.detonateArm, POp.timerFire]).airborne
      = false :=
  airborne_monotone { baseState with airborne := false }
    [POp.tick baseEnv, POp.damageOp 5, POp.detonateArm, POp.timerFire] rfl

/-- C4: a target in last tick's damaged set receives no impact damage this
tick, whatever its geometric relation to the projectile. -/
theorem damagedLastTick_no_damage (env : Env) (s : ProjState) (i : ℕ)
    (hmem : i ∈ s.damagedLastTick) :
    ∀ a, Event.damage i a ∉ (updateF env s).2 := by
  intro a
  by_cases hc4 : s.pdef.c4 = true
  · rw [updateF_c4 env s hc4]
    simp
  · rw [updateF_run env s (by simpa using hc4)]
    intro hcontra
    obtain ⟨-, -, -, -, -, -, -, -, wchar, -⟩ := sweptPhase_proj
      (processList (tickCtx env s) ⟨integrate env s, ∅, ∅, none, []⟩ env.candidates)
    obtain ⟨-, i2, -, -, -, -⟩ := integrate_proj env s
    have hL : Event.damage i a ∉
        (processList (tickCtx env s) ⟨integrate env s, ∅, ∅, none, []⟩
          env.candidates).events := by
      refine processList_damage (tickCtx env s) env.candidates _ i a ?_ (by simp)
      show i ∈ (integrate env s).damagedLastTick
      rw [i2]
      exact hmem
    rcases em (Event.damage i a ∈
        (processList (tickCtx env s) ⟨integrate env s, ∅, ∅, none, []⟩
          env.candidates).events) with hin | hout
    · exact hL hin
    · rcases wchar _ hcontra hout with ⟨c, -, hrefl⟩
      exact Event.noConfusion hrefl

/-- Witness for C4: obstacle 5 overlaps the projectile and was damaged
last tick; the tick records the overlap but no damage for it. -/
theorem damagedLastTick_no_damage_witness :
    5 ∈ sW4.damagedLastTick ∧
      Event.collideCheck 5 true ∈ (updateF envW4 sW4).2 ∧
      Event.damage 5 40 ∉ (updateF envW4 sW4).2 :=
  ⟨by decide, by decide, damagedLastTick_no_damage envW4 sW4 5 (by decide) 40⟩
/-- C2 (amended): an obstacle/building in `currentlyAbove` at the start of
a tick that is still colliding whenever the tick examines it (every
recorded `collideCheck` for it is positive) receives no collision reaction
— no damage and no reflection — and remains in `currentlyAbove`; the drag
coefficient, however, is *not* protected (see the counterexample). -/
theorem flyover_membership_suppresses (env : Env) (s : ProjState) (i : ℕ)
    (hmem : i ∈ s.currentlyAbove)
    (hkind : ∀ o ∈ env.candidates, o.id = i → (o.isObstacle || o.isBuilding) = true)
    (hcc : ∀ b, Event.collideCheck i b ∈ (updateF env s).2 → b = true) :
    (∀ a, Event.damage i a ∉ (updateF env s).2) ∧
      Event.reflect i ∉ (updateF env s).2 ∧
      i ∈ (updateF env s).1.currentlyAbove := by
  by_cases hc4 : s.pdef.c4 = true
  · rw [updateF_c4 env s hc4]
    exact ⟨fun a h => by simp at h, by simp, hmem⟩
  · rw [updateF_run env s (by simpa using hc4)] at hcc ⊢
    obtain ⟨-, -, -, -, -, w6, -, wmem, wchar, -⟩ := sweptPhase_proj
      (processList (tickCtx env s) ⟨integrate env s, ∅, ∅, none, []⟩ env.candidates)
    obtain ⟨i1, -, -, -, -, -⟩ := integrate_proj env s
    obtain ⟨hA1, hA2, hA3, hA4⟩ :=
      processList_above (tickCtx env s) env.candidates i
        ⟨integrate env s, ∅, ∅, none, []⟩
        (by show i ∈ (integrate env s).currentlyAbove; rw [i1]; exact hmem)
        hkind (by simp) (by simp) (fun c hc => Option.noConfusion hc)
        (fun b hb => hcc b (wmem _ hb))
    refine ⟨?_, ?_, ?_⟩
    · intro a hcontra
      rcases em (Event.damage i a ∈
          (processList (tickCtx env s) ⟨integrate env s, ∅, ∅, none, []⟩
            env.candidates).events) with hin | hout
      · exact hA2 a hin
      · rcases wchar _ hcontra hout with ⟨c, -, hrefl⟩
        exact Event.noConfusion hrefl
    · intro hcontra
      rcases em (Event.reflect i ∈
          (processList (tickCtx env s) ⟨integrate env s, ∅, ∅, none, []⟩
            env.candidates).events) with hin | hout
      · exact hA3 hin
      · rcases wchar _ hcontra hout with ⟨c, hLc, hrefl⟩
        exact hA4 c hLc (by simpa using hrefl.symm)
    · show i ∈ (sweptPhase _).s.currentlyAbove
      rw [w6]
      exact hA1

/-- Witness for C2 (amended): obstacle 3 is in `currentlyAbove`, the tick
records a positive overlap check, and the theorem yields no damage, no
reflection, and continued membership. -/
theorem flyover_membership_suppresses_witness :
    3 ∈ sW2.currentlyAbove ∧
      Event.damage 3 40 ∉ (updateF envW2 sW2).2 ∧
      Event.reflect 3 ∉ (updateF envW2 sW2).2 ∧
      3 ∈ (updateF envW2 sW2).1.currentlyAbove := by
  have h := flyover_membership_suppresses envW2 sW2 3 (by decide) (by decide)
    (by decide)
  exact ⟨by decide, h.1 40, h.2.1, h.2.2⟩

/-- C2 counterexample: obstacle 7 (preference `Sometimes`) is in
`currentlyAbove` and still geometrically colliding (the recorded overlap
check is positive, and no damage or reflection happens), yet the tick
escalates the drag coefficient from `Normal` to `Harsh` on account of that
very object — the only candidate, with floor overlays disabled. -/
theorem flyover_membership_drag_escalates :
    7 ∈ sC2.currentlyAbove ∧
      sC2.drag = dragNormal ∧
      (updateF envC2 sC2).2 = [Event.collideCheck 7 true] ∧
      (updateF envC2 sC2).1.drag = dragHarsh ∧
      7 ∈ (updateF envC2 sC2).1.currentlyAbove := by
  refine ⟨by decide, by decide, by decide, by decide, by decide⟩

/-- C3 (amended): while the owner-grace flag is unset and
`now - spawnTime < 250`, the thrower (an overlapping player) is neither
damaged nor reflected off and the flag stays unset; the flag is set at the
end of the first tick with `now - spawnTime ≥ 250` — so owner collision
becomes possible only from the *following* tick — and once set it is
permanent. -/
theorem owner_grace_window (env : Env) (s : ProjState)
    (hown : ∀ o ∈ env.candidates, o.id = s.ownerId → o.kind = ObjKind.player) :
    ((s.collideWithOwner = false ∧ env.now - s.spawnTime < 250) →
      (∀ a, Event.damage s.ownerId a ∉ (updateF env s).2) ∧
        Event.reflect s.ownerId ∉ (updateF env s).2 ∧
        (updateF env s).1.collideWithOwner = false) ∧
      (s.pdef.c4 = false → env.now - s.spawnTime ≥ 250 →
        (updateF env s).1.collideWithOwner = true) ∧
      (s.collideWithOwner = true → (updateF env s).1.collideWithOwner = true) := by
  by_cases hc4 : s.pdef.c4 = true
  · rw [updateF_c4 env s hc4]
    exact ⟨fun ⟨hf, _⟩ => ⟨fun a h => by simp at h, by simp, hf⟩,
      fun hc4f _ => absurd hc4 (by simp [hc4f]), fun ht => ht⟩
  · rw [updateF_run env s (by simpa using hc4)]
    obtain ⟨-, w2, -, -, w5, -, -, wmem, wchar, -⟩ := sweptPhase_proj
      (processList (tickCtx env s) ⟨integrate env s, ∅, ∅, none, []⟩ env.candidates)
    obtain ⟨-, p2, -, p4, p5, -⟩ :=
      processList_proj (tickCtx env s) env.candidates ⟨integrate env s, ∅, ∅, none, []⟩
    obtain ⟨-, -, i3, i4, i5, -⟩ := integrate_proj env s
    have hflag : (finishTick env
        (sweptPhase (processList (tickCtx env s) ⟨integrate env s, ∅, ∅, none, []⟩
          env.candidates))).1.collideWithOwner
        = ((sweptPhase (processList (tickCtx env s) ⟨integrate env s, ∅, ∅, none, []⟩
            env.candidates)).s.collideWithOwner
          || decide (env.now - s.spawnTime ≥ 250)) := by
      show ((sweptPhase _).s.collideWithOwner || decide (env.now - (sweptPhase _).s.spawnTime ≥ 250)) = _
      rw [w5, p5]
      show ((sweptPhase _).s.collideWithOwner || decide (env.now - (integrate env s).spawnTime ≥ 250)) = _
      rw [i5]
    refine ⟨?_, ?_, ?_⟩
    · rintro ⟨hf, hnow⟩
      obtain ⟨hO1, hO2, hO3⟩ :=
        processList_owner (tickCtx env s) env.candidates s.ownerId
          ⟨integrate env s, ∅, ∅, none, []⟩
          (by show (integrate env s).ownerId = s.ownerId; rw [i4])
          (by show (integrate env s).collideWithOwner = false; rw [i3]; exact hf)
          hown (by simp) (by simp) (fun c hc => Option.noConfusion hc)
      refine ⟨?_, ?_, ?_⟩
      · intro a hcontra
        rcases em (Event.damage s.ownerId a ∈
            (processList (tickCtx env s) ⟨integrate env s, ∅, ∅, none, []⟩
              env.candidates).events) with hin | hout
        · exact hO1 a hin
        · rcases wchar _ hcontra hout with ⟨c, hLc, hrefl⟩
          exact Event.noConfusion hrefl
      · intro hcontra
        rcases em (Event.reflect s.ownerId ∈
            (processList (tickCtx env s) ⟨integrate env s, ∅, ∅, none, []⟩
              env.candidates).events) with hin | hout
        · exact hO2 hin
        · rcases wchar _ hcontra hout with ⟨c, hLc, hrefl⟩
          exact hO3 c hLc (by simpa using hrefl.symm)
      · rw [hflag, w2, p2]
        show ((integrate env s).collideWithOwner || _) = false
        rw [i3, hf]
        simp only [Bool.false_or, decide_eq_false_iff_not]
        exact not_le.mpr hnow
    · intro _ h250
      rw [hflag]
      simp [h250]
    · intro ht
      rw [hflag, w2, p2]
      show ((integrate env s).collideWithOwner || _) = true
      rw [i3, ht]
      simp
/-- Witness for C3 (amended): a tick 100 ms after spawn with the thrower
overlapping, damage-eligible speed, and the grace flag unset: no owner
damage, no owner reflection, flag still unset. -/
theorem owner_grace_window_witness :
    sC3.collideWithOwner = false ∧
      Event.damage 99 40 ∉ (updateF envW3 sC3).2 ∧
      Event.reflect 99 ∉ (updateF envW3 sC3).2 ∧
      (updateF envW3 sC3).1.collideWithOwner = false := by
  have h := (owner_grace_window envW3 sC3 (by decide)).1 ⟨rfl, by decide⟩
  exact ⟨rfl, h.1 40, h.2.1, h.2.2⟩

/-- C3 counterexample: at the very tick where `now - spawnTime` first
reaches 250 ms the flag is still unset during the candidate scan, so the
overlapping, damage-eligible thrower is *not* damaged or reflected off —
while the identical state with the flag already set produces both events.
Owner collision therefore only becomes possible from the following tick. -/
theorem owner_damage_blocked_at_threshold :
    envC3.now - sC3.spawnTime ≥ 250 ∧
      sC3.collideWithOwner = false ∧
      (updateF envC3 sC3).2 = [] ∧
      (updateF envC3 { sC3 with collideWithOwner := true }).2
        = [Event.damage 99 40, Event.reflect 99] :=
  ⟨by decide, by decide, by decide, by decide⟩

theorem squaredLength_scale (v : Vec) (k : ℚ) :
    Vec.squaredLength (Vec.scale v k) = Vec.squaredLength v * (k * k) := by
  unfold Vec.squaredLength Vec.scale
  ring

theorem squaredLength_pos (v : Vec) (h : v ≠ ⟨0, 0⟩) : 0 < Vec.squaredLength v := by
  unfold Vec.squaredLength
  rcases v with ⟨x, y⟩
  by_cases hx : x = 0
  · subst hx
    have hy : y ≠ 0 := fun h2 => h (by rw [h2])
    have := mul_self_pos.mpr hy
    nlinarith
  · have := mul_self_pos.mpr hx
    nlinarith [mul_self_nonneg y]

/-- With no reflection event anywhere in the tick, the whole update scales
the velocity exactly by the drag factor `1 / (1 + dt * drag)`. -/
theorem updateF_vel (env : Env) (s : ProjState) (hc4 : s.pdef.c4 = false)
    (hno : ∀ j, Event.reflect j ∉ (updateF env s).2) :
    (updateF env s).1.vel = Vec.scale s.vel (1 / (1 + env.dt * s.drag)) := by
  rw [updateF_run env s hc4] at hno ⊢
  obtain ⟨-, -, -, -, -, -, -, wmem, -, wvel⟩ := sweptPhase_proj
    (processList (tickCtx env s) ⟨integrate env s, ∅, ∅, none, []⟩ env.candidates)
  have hnoW : ∀ j, Event.reflect j ∉ (sweptPhase
      (processList (tickCtx env s) ⟨integrate env s, ∅, ∅, none, []⟩
        env.candidates)).events := fun j hj => hno j hj
  show (sweptPhase _).s.vel = _
  rw [wvel hnoW]
  rw [processList_vel (tickCtx env s) env.candidates _
    (fun j hj => hnoW j (wmem _ hj))]
  show (integrate env s).vel = _
  obtain ⟨-, -, -, -, -, i6⟩ := integrate_proj env s
  exact i6

/-- C7 (amended): on a ballistic (non-C4) projectile with nonzero velocity,
`dt > 0` and a positive drag coefficient, a tick in which no collision
(reflection) occurs strictly decreases the squared speed. -/
theorem drag_strictly_decreases (env : Env) (s : ProjState)
    (hc4 : s.pdef.c4 = false) (hdt : 0 < env.dt) (hdrag : 0 < s.drag)
    (hvel : s.vel ≠ ⟨0, 0⟩)
    (hno : ∀ j, Event.reflect j ∉ (updateF env s).2) :
    Vec.squaredLength (updateF env s).1.vel < Vec.squaredLength s.vel := by
  rw [updateF_vel env s hc4 hno, squaredLength_scale]
  have hd : 0 < env.dt * s.drag := mul_pos hdt hdrag
  have hden : (0 : ℚ) < 1 + env.dt * s.drag := by linarith
  have hk0 : 0 < 1 / (1 + env.dt * s.drag) := by positivity
  have hk1 : 1 / (1 + env.dt * s.drag) < 1 := by
    rw [div_lt_one hden]
    linarith
  have hL := squaredLength_pos s.vel hvel
  have hkk : (1 / (1 + env.dt * s.drag)) * (1 / (1 + env.dt * s.drag)) < 1 := by
    nlinarith
  calc Vec.squaredLength s.vel *
        (1 / (1 + env.dt * s.drag) * (1 / (1 + env.dt * s.drag)))
      < Vec.squaredLength s.vel * 1 := mul_lt_mul_of_pos_left hkk hL
    _ = Vec.squaredLength s.vel := mul_one _

/-- C7 counterexample: a zero-velocity ballistic tick with positive `dt`
and drag and no collision leaves the squared speed unchanged (not strictly
smaller). -/
theorem drag_no_decrease_zero_velocity :
    0 < baseEnv.dt ∧ 0 < sC7.drag ∧ sC7.pdef.c4 = false ∧
      (updateF baseEnv sC7).2 = [] ∧
      Vec.squaredLength (updateF baseEnv sC7).1.vel = Vec.squaredLength sC7.vel :=
  ⟨by decide, by decide, by decide, by decide, by decide⟩

/-- Witness for C7 (amended) at a nonzero-velocity tick over an empty map. -/
theorem drag_strictly_decreases_witness :
    sW7.pdef.c4 = false ∧ 0 < baseEnv.dt ∧ 0 < sW7.drag ∧
      Vec.squaredLength (updateF baseEnv sW7).1.vel < Vec.squaredLength sW7.vel := by
  refine ⟨rfl, by decide, by decide, ?_⟩
  refine drag_strictly_decreases baseEnv sW7 rfl (by decide) (by decide) (by decide) ?_
  intro j hj
  rw [show (updateF baseEnv sW7).2 = [] from by decide] at hj
  exact absurd hj (by simp)

theorem vec_add_zero_right (p : Vec) : Vec.add p ⟨0, 0⟩ = p := by
  unfold Vec.add
  rcases p with ⟨x, y⟩
  simp

theorem calculateSafeDisplacement_zero (st : ProjState) :
    calculateSafeDisplacement st 0 = ⟨0, 0⟩ := by
  unfold calculateSafeDisplacement
  dsimp only
  have h1 : Vec.scale st.vel 0 = ⟨0, 0⟩ := by
    unfold Vec.scale
    simp
  rw [h1]
  have h2 : Vec.length (⟨0, 0⟩ : Vec) = 0 := by decide
  rw [h2, mul_zero]
  rw [if_neg (lt_irrefl 0)]

theorem normalizeAngle_eq_self (x : ℚ) (h1 : -piQ ≤ x) (h2 : x < piQ) :
    normalizeAngle x = x := by
  unfold normalizeAngle
  have hpi : (0 : ℚ) < piQ := by norm_num [piQ]
  have h0 : ⌊(x + piQ) / (2 * piQ)⌋ = 0 := by
    rw [Int.floor_eq_zero_iff, Set.mem_Ico]
    constructor
    · exact div_nonneg (by linarith) (by linarith)
    · rw [div_lt_one (by linarith)]
      linarith
  rw [h0]
  simp

/-- With `dt = 0` the integration stage leaves position, rotation (when
already canonical) and radius untouched. -/
theorem integrate_dt_zero (env : Env) (s : ProjState) (hdt : env.dt = 0)
    (hr1 : -piQ ≤ s.rot) (hr2 : s.rot < piQ) :
    (integrate env s).pos = s.pos ∧ (integrate env s).rot = s.rot ∧
      (integrate env s).radius = s.radius := by
  unfold integrate
  dsimp only
  rw [hdt]
  have hh : (1 : ℚ) / 2 * 0 = 0 := by norm_num
  rw [hh]
  simp only [calculateSafeDisplacement_zero, vec_add_zero_right, mul_zero, add_zero]
  rw [normalizeAngle_eq_self s.rot hr1 hr2]
  split
  · exact ⟨rfl, rfl, rfl⟩
  · split
    · exact ⟨rfl, rfl, rfl⟩
    · exact ⟨rfl, rfl, rfl⟩

theorem intersectsLineCircle_degenerate (c : Vec) (r : ℚ) (a : Vec) :
    intersectsLineCircle c r a a = none := by
  unfold intersectsLineCircle
  split
  · rfl
  · have h0 : Vec.squaredLength (Vec.sub a a) = 0 := by
      unfold Vec.squaredLength Vec.sub
      ring
    dsimp only
    rw [if_pos h0]

theorem intersectsLineRect_degenerate (lo hi a : Vec) :
    intersectsLineRect lo hi a a = none := by
  unfold intersectsLineRect
  dsimp only
  have hx : (Vec.sub a a).x = 0 := by
    unfold Vec.sub
    ring
  have hy : (Vec.sub a a).y = 0 := by
    unfold Vec.sub
    ring
  rw [hx, hy]
  unfold axisSlab
  rw [if_pos rfl, if_pos rfl]
  by_cases hin1 : lo.x ≤ a.x ∧ a.x ≤ hi.x
  · rw [if_pos hin1]
    by_cases hin2 : lo.y ≤ a.y ∧ a.y ≤ hi.y
    · rw [if_pos hin2]
      dsimp only
      rw [if_neg (by norm_num)]
    · rw [if_neg hin2]
  · rw [if_neg hin1]

mutual
/-- With `dt = 0` the swept segment is degenerate and no shape reports a
line intersection. -/
theorem intersectsLineH_degenerate (h : Hitbox) (a : Vec) :
    intersectsLineH h a a = none := by
  cases h with
  | circle c r => exact intersectsLineCircle_degenerate c r a
  | rect lo hi => exact intersectsLineRect_degenerate lo hi a
  | group hs => exact intersectsLineList_degenerate hs a
termination_by sizeOf h
/-- Degenerate-segment case of the group query. -/
theorem intersectsLineList_degenerate (ms : List Hitbox) (a : Vec) :
    intersectsLineList ms a a = none := by
  cases ms with
  | nil => rfl
  | cons h t =>
    unfold intersectsLineList
    rw [intersectsLineH_degenerate h a, intersectsLineList_degenerate t a]
termination_by sizeOf ms
end

/-- A non-colliding observation never `continue`s the obstacle block. -/
theorem obstaclePhase_false_snd (ctx : TickCtx) (ls : LoopSt) (o : GObj) :
    (obstaclePhase ctx ls o false).2 = false := by
  unfold obstaclePhase
  split <;> simp

/-- `candidateCollides` only reads the projectile's centre and radius. -/
theorem candidateCollides_congr (s1 s2 : ProjState) (o : GObj)
    (hp : s1.pos = s2.pos) (hr : s1.radius = s2.radius) :
    candidateCollides s1 o = candidateCollides s2 o := by
  unfold candidateCollides
  cases o.hb with
  | none => rfl
  | some hb => rw [hp, hr]

/-- An iteration on a non-colliding candidate (static overlap test false,
no swept-line hit) leaves position, rotation, radius and the closest
record untouched. -/
theorem processCandidate_noncolliding (ctx : TickCtx) (ls : LoopSt) (o : GObj)
    (hnc : candidateCollides ls.s o = false)
    (hline : ∀ hb, o.hb = some hb →
      intersectsLineH hb ctx.oldPosition ls.s.pos = none) :
    (processCandidate ctx ls o).s.pos = ls.s.pos ∧
      (processCandidate ctx ls o).s.rot = ls.s.rot ∧
      (processCandidate ctx ls o).s.radius = ls.s.radius ∧
      (processCandidate ctx ls o).closest = ls.closest := by
  unfold processCandidate
  split
  · exact ⟨rfl, rfl, rfl, rfl⟩
  · split
    · exact ⟨rfl, rfl, rfl, rfl⟩
    · rename_i hitbox heq
      have hc1 : collidesWithCircle hitbox ls.s.pos ls.s.radius = false := by
        unfold candidateCollides at hnc
        rw [heq] at hnc
        exact hnc
      have hc2 := hline hitbox heq
      dsimp only
      rw [hc1, hc2]
      simp only [Option.isSome_none, Bool.or_false]
      rw [if_neg (by rw [obstaclePhase_false_snd]; exact Bool.false_ne_true)]
      simp only [Bool.not_false, if_true]
      show (trackPhase ctx (obstaclePhase ctx ls o false).1 o none).s.pos = _ ∧ _
      rcases obstaclePhase_shape ctx ls o false with h | ⟨ab, dr, δ, h, -, -⟩
      · rw [show (obstaclePhase ctx ls o false).1 = ls from by rw [h]]
        exact ⟨rfl, rfl, rfl, rfl⟩
      · rw [h]
        exact ⟨rfl, rfl, rfl, rfl⟩

/-- The whole candidate loop over candidates none of which collide keeps
position, rotation, radius and the closest record. -/
theorem processList_noncolliding (ctx : TickCtx) (os : List GObj)
    (s0 : ProjState) : ∀ ls : LoopSt,
    ls.s.pos = s0.pos → ls.s.radius = s0.radius →
    ctx.oldPosition = s0.pos →
    (∀ o ∈ os, candidateCollides s0 o = false) →
    (∀ o ∈ os, ∀ hb, o.hb = some hb →
      intersectsLineH hb s0.pos s0.pos = none) →
    (processList ctx ls os).s.pos = s0.pos ∧
      (processList ctx ls os).s.rot = ls.s.rot ∧
      (processList ctx ls os).s.radius = s0.radius ∧
      (processList ctx ls os).closest = ls.closest := by
  induction os with
  | nil =>
    intro ls hp hr _ _ _
    exact ⟨hp, rfl, hr, rfl⟩
  | cons o t ih =>
    intro ls hp hr hold hcol hline
    rw [processList_cons]
    obtain ⟨q1, q2, q3, q4⟩ := processCandidate_noncolliding ctx ls o
      (by rw [candidateCollides_congr ls.s s0 o hp hr]; exact hcol o (by simp))
      (fun hb hhb => by rw [hold, hp]; exact hline o (by simp) hb hhb)
    obtain ⟨w1, w2, w3, w4⟩ := ih (processCandidate ctx ls o)
      (by rw [q1, hp]) (by rw [q3, hr]) hold
      (fun o2 ho2 => hcol o2 (by simp [ho2]))
      (fun o2 ho2 => hline o2 (by simp [ho2]))
    exact ⟨w1, by rw [w2, q2], w3, by rw [w4, q4]⟩

/-- With no tracked closest intersection the swept correction is a no-op. -/
theorem sweptPhase_none (ls : LoopSt) (h : ls.closest = none) :
    sweptPhase ls = ls := by
  unfold sweptPhase
  rw [h]

/-- C8 (amended): with `dt = 0`, no colliding candidates, an in-bounds
position and a canonical rotation, a tick leaves position and rotation
unchanged regardless of the velocity. -/
theorem dt_zero_preserves_pose (env : Env) (s : ProjState)
    (hdt : env.dt = 0)
    (hcand : ∀ o ∈ env.candidates, candidateCollides s o = false)
    (hx1 : s.radius ≤ s.pos.x) (hx2 : s.pos.x ≤ env.mapWidth - s.radius)
    (hy1 : s.radius ≤ s.pos.y) (hy2 : s.pos.y ≤ env.mapHeight - s.radius)
    (hr1 : -piQ ≤ s.rot) (hr2 : s.rot < piQ) :
    (updateF env s).1.pos = s.pos ∧ (updateF env s).1.rot = s.rot := by
  by_cases hc4 : s.pdef.c4 = true
  · rw [updateF_c4 env s hc4]
    exact ⟨rfl, rfl⟩
  · rw [updateF_run env s (by simpa using hc4)]
    obtain ⟨hp, hr, hrad⟩ := integrate_dt_zero env s hdt hr1 hr2
    obtain ⟨hLp, hLr, hLrad, hLc⟩ :=
      processList_noncolliding (tickCtx env s) env.candidates s
        ⟨integrate env s, ∅, ∅, none, []⟩
        (show (integrate env s).pos = s.pos from hp)
        (show (integrate env s).radius = s.radius from hrad)
        rfl hcand
        (fun o _ hb _ => intersectsLineH_degenerate hb s.pos)
    rw [sweptPhase_none _ hLc]
    constructor
    · show (⟨clampQ (processList (tickCtx env s) ⟨integrate env s, ∅, ∅, none, []⟩
            env.candidates).s.pos.x
          (processList (tickCtx env s) ⟨integrate env s, ∅, ∅, none, []⟩
            env.candidates).s.radius
          (env.mapWidth - (processList (tickCtx env s) ⟨integrate env s, ∅, ∅, none, []⟩
            env.candidates).s.radius),
        clampQ (processList (tickCtx env s) ⟨integrate env s, ∅, ∅, none, []⟩
            env.candidates).s.pos.y
          (processList (tickCtx env s) ⟨integrate env s, ∅, ∅, none, []⟩
            env.candidates).s.radius
          (env.mapHeight - (processList (tickCtx env s) ⟨integrate env s, ∅, ∅, none, []⟩
            env.candidates).s.radius)⟩ : Vec) = s.pos
      rw [hLp, hLrad]
      rw [clampQ_eq_self _ _ _ hx1 hx2, clampQ_eq_self _ _ _ hy1 hy2]
    · show (processList (tickCtx env s) ⟨integrate env s, ∅, ∅, none, []⟩
          env.candidates).s.rot = s.rot
      rw [hLr]
      exact hr

/-- C8 counterexample: with `dt = 0` but an overlapping obstacle, the tick
moves the projectile (penetration resolution), so a zero-`dt` tick does
not leave the position unchanged unconditionally. -/
theorem dt_zero_moves_on_collision :
    envC8.dt = 0 ∧ (updateF envC8 sC8).1.pos ≠ sC8.pos :=
  ⟨by decide, by decide⟩

/-- Witness for C8 (amended) on a zero-`dt` tick whose only candidate is a
present but non-colliding obstacle. -/
theorem dt_zero_preserves_pose_witness :
    envW8.candidates ≠ [] ∧
      (updateF envW8 sC8).1.pos = sC8.pos ∧ (updateF envW8 sC8).1.rot = sC8.rot :=
  ⟨by simp [envW8, baseEnv],
    dt_zero_preserves_pose envW8 sC8 rfl (by decide) (by decide) (by decide)
      (by decide) (by decide) (by decide) (by decide)⟩
/-- C1: the reflection computed by `handleCollision` — normalize by the
velocity's length `len`, reflect, rescale by `len * 0.4` — satisfies the
spec's law `v' = (v - 2(v·n)n) * 0.4` whenever the length is nonzero (for
any value of `len`; the hypotheses record that `len` is the Euclidean
length of `v` and that the collision normal `n` is unit). -/
theorem reflection_law (v n : Vec) (len : ℚ)
    (hlen : len ≠ 0) (_hsq : len * len = Vec.squaredLength v)
    (_hn : Vec.squaredLength n = 1) :
    reflectOff v n len =
      Vec.scale (Vec.sub v (Vec.scale n (2 * Vec.dotProduct v n))) (2 / 5) := by
  unfold reflectOff Vec.scale Vec.sub Vec.add Vec.dotProduct
  refine congrArg₂ Vec.mk ?_ ?_ <;> field_simp <;> ring

/-- Witness for C1 at `v = (3,4)`, `n = (0,1)`, `len = 5`. -/
theorem reflection_law_witness :
    (5 : ℚ) ≠ 0 ∧
      reflectOff ⟨3, 4⟩ ⟨0, 1⟩ 5 =
        Vec.scale (Vec.sub ⟨3, 4⟩ (Vec.scale ⟨0, 1⟩ (2 * Vec.dotProduct ⟨3, 4⟩ ⟨0, 1⟩)))
          (2 / 5) :=
  ⟨by norm_num,
    reflection_law ⟨3, 4⟩ ⟨0, 1⟩ 5 (by norm_num)
      (by unfold Vec.squaredLength; norm_num)
      (by unfold Vec.squaredLength; norm_num)⟩

/-- C9: a detonation-timer firing on an already-destroyed projectile is a
no-op (no deregistration, no explosion), and two sequential firings of a
live explosive projectile spawn exactly one explosion. -/
theorem detonation_fires_once :
    (∀ s : ProjState, s.dead = true → fireTimerF s = (s, [])) ∧
      (∀ s : ProjState, s.dead = false → s.pdef.hasExplosion = true →
        ((fireTimerF s).2 ++ (fireTimerF (fireTimerF s).1).2).count Event.explode = 1) := by
  constructor
  · intro s hs
    simp [fireTimerF, hs]
  · intro s hs hx
    simp [fireTimerF, hs, hx]

/-- Witness for C9 at a destroyed and at a live explosive projectile. -/
theorem detonation_fires_once_witness :
    fireTimerF sDeadC9 = (sDeadC9, []) ∧
      ((fireTimerF sLiveC9).2 ++ (fireTimerF (fireTimerF sLiveC9).1).2).count
        Event.explode = 1 :=
  ⟨detonation_fires_once.1 sDeadC9 rfl, detonation_fires_once.2 sLiveC9 rfl rfl⟩

/-- C10: with the projectile's velocity the zero vector and a penetration
resolution available (an overlapping obstacle, as in the constructor's
initial collision pass), every `handleCollision` guard passes and the
reflection branch is reached, so the division by `Vec.length velocity`
divides by zero. -/
theorem reflection_divides_by_zero :
    hcBail sC10 ∅ obstC10 = false ∧
      (handleCollisionF sC10 ∅ obstC10).2 = [Event.reflect 13] ∧
      Vec.length sC10.vel = 0 := by
  refine ⟨by decide, by decide, by decide⟩

end
